import Mathlib

/-! Todo-List: a shallow embedding of the task store, the storage wrapper and the task dialog.

The JavaScript sources under `scripts/` are embedded as pure functions over explicit state:
`classes/LocalStorage.js`, `classes/SequencialId.js`, `classes/TaskList.js`,
`classes/Dialog/Dialog.js`, `classes/Dialog/TaskDialog.js`, `enums/` and the functions of
`composable/TodoApp.js`.

* JavaScript primitive values are the type `JSVal`; numbers are the type `JSNum`. A finite
  number is held as the decimal `m / 10 ^ k` it is equal to; reading a numeral, `x++` and the
  Number value of an integer round to the nearest binary64 value (`toDouble`), and printing
  gives the shortest decimal that reads back, in exponent notation where `Number::toString`
  uses it. Zero has no sign: `-0` is `0`, which the code cannot tell apart.
* A task record is a JavaScript object whose properties hold primitive values: `Obj`.
* The builtins the code calls are modelled after ECMAScript: `Number(text)` (`stringToNumber`),
  `==` (`looseEq`), truthiness, template-literal `ToString`, `JSON.parse` and `JSON.stringify`.
* The browser's `localStorage` is a key/value list of strings: `Storage`. Methods that write to
  it take the storage and return the new one.
* The dialog's markup is a fixed set of elements (`FieldId`) with the three properties the code
  reads and writes (`value`, `innerText`, `disabled`). The markup itself is not among the
  sources: an element holds the text assigned to it, which is what a form control does with a
  text of its own kind (one line for a text field, a calendar date or nothing for a date field,
  the value of an option for a list), and a statement that reads a value back after writing it
  is made for such texts. `setTimeout` appends to a timer queue that is part of the dialog's
  state. Methods that can raise return an `Except`.
* The rendered list is the sequence of rows `addToDOM` has appended; the handlers that a row's
  buttons and checkbox carry are the functions `viewClick`, `editClick`, `trashClick` and
  `checkboxChange`.
-/

namespace TodoList

/-! ## JavaScript numbers -/

/-- A JavaScript number: `NaN`, an infinity, or a finite binary64 value, written as the decimal
`m / 10 ^ k` it is equal to (every binary64 value is such a decimal). -/
inductive JSNum where
  | nan
  | inf (neg : Bool)
  | fin (m : Int) (k : Nat)
  deriving DecidableEq, Repr

/-- Canonical form of `m / 10 ^ k`: trailing zeros of the fraction are dropped. -/
def JSNum.norm (m : Int) : Nat → JSNum
  | 0 => .fin m 0
  | k + 1 => if m % 10 = 0 then JSNum.norm (m / 10) k else .fin m (k + 1)

/-- The exponent of the leading bit of `n`, by halving at most `f` times. -/
def log2Fuel : Nat → Nat → Nat
  | 0, _ => 0
  | f + 1, n => if n < 2 then 0 else log2Fuel f (n / 2) + 1

/-- The exponent of the leading bit of `n`. -/
def ilog2 (n : Nat) : Nat := log2Fuel n n

/-- The integer part of the binary logarithm of `p / q`, for positive `p` and `q`. -/
def binExponent (p q : Nat) : Int :=
  let g : Int := (ilog2 p : Int) - (ilog2 q : Int)
  let above : Bool :=
    if 0 ≤ g then decide (q * 2 ^ g.toNat ≤ p) else decide (q ≤ p * 2 ^ (-g).toNat)
  if above then g else g - 1

/-- The multiple of `2 ^ e` nearest to `p / q`, ties to the even multiple; `Infinity` when it
is `2 ^ 1024` or more. The exponent `e` is that of the last bit of the significand. -/
def roundAt (p q : Nat) (e : Int) : JSNum :=
  let num : Nat := if 0 ≤ e then p else p * 2 ^ (-e).toNat
  let den : Nat := if 0 ≤ e then q * 2 ^ e.toNat else q
  let m0 := num / den
  let r := num % den
  let m := if den < 2 * r ∨ (2 * r = den ∧ m0 % 2 = 1) then m0 + 1 else m0
  if 0 ≤ e then
    if 972 ≤ e ∨ (e = 971 ∧ 2 ^ 53 ≤ m) then .inf false
    else .fin (Int.ofNat (m * 2 ^ e.toNat)) 0
  else JSNum.norm (Int.ofNat (m * 5 ^ (-e).toNat)) (-e).toNat

/-- The binary64 value nearest to `p / q` (round to nearest, ties to even): 53 bits of
significand, the last bit no lower than `2 ^ -1074`; `q` is positive. -/
def toDouble (p q : Nat) : JSNum :=
  if p = 0 then .fin 0 0 else roundAt p q (max (binExponent p q - 52) (-1074))

/-- The Number value of a natural number: the number itself up to `2 ^ 53`, the nearest
binary64 value beyond. -/
def JSNum.ofNat (n : Nat) : JSNum := toDouble n 1

/-- Unary minus. -/
def JSNum.neg : JSNum → JSNum
  | .nan => .nan
  | .inf b => .inf (!b)
  | .fin m k => .fin (-m) k

/-- The builtin `isNaN` on a number. -/
def JSNum.isNaN : JSNum → Bool
  | .nan => true
  | _ => false

/-- Numeric equality (`Number::equal`): `NaN` equals nothing, finite values compare by value. -/
def JSNum.eq : JSNum → JSNum → Bool
  | .inf a, .inf b => a == b
  | .fin m k, .fin n j => decide (m * 10 ^ j = n * 10 ^ k)
  | _, _ => false

/-- Whether the number is an integer (`Number.isInteger`). -/
def JSNum.isInteger : JSNum → Bool
  | .fin m k => decide (m % 10 ^ k = 0)
  | _ => false

/-- The builtin `ToBoolean` on a number: `0` and `NaN` are falsy. -/
def JSNum.toBoolean : JSNum → Bool
  | .nan => false
  | .inf _ => true
  | .fin m _ => decide (m ≠ 0)

/-- The Number value of the decimal `M * 10 ^ (e - f)`: `M` the digits read, `f` how many of
them follow the point, `e` the exponent written. -/
def JSNum.ofDecimal (M : Nat) (f : Nat) (e : Int) : JSNum :=
  if (f : Int) ≤ e then toDouble (M * 10 ^ (e - f).toNat) 1
  else toDouble M (10 ^ ((f : Int) - e).toNat)

/-- The postfix increment `x++` on a number: the binary64 sum `x + 1`. -/
def JSNum.succ : JSNum → JSNum
  | .nan => .nan
  | .inf b => .inf b
  | .fin m k =>
    if 0 ≤ m + 10 ^ k then toDouble (m + 10 ^ k).natAbs (10 ^ k)
    else JSNum.neg (toDouble (m + 10 ^ k).natAbs (10 ^ k))

/-- The least `z`, from `z` on, with `q ≤ p * 10 ^ z`. -/
def fracShift (p q : Nat) : Nat → Nat → Nat
  | 0, z => z
  | f + 1, z => if q ≤ p * 10 ^ z then z else fracShift p q f (z + 1)

/-- The `n` with `10 ^ (n - 1) ≤ p / q < 10 ^ n`, for positive `p` and `q`. -/
def decimalExponent (p q : Nat) : Int :=
  if q ≤ p then ((Nat.toDigits 10 (p / q)).length : Int)
  else 1 - (fracShift p q (Nat.toDigits 10 q).length 1 : Int)

/-- The digits `s` and the exponent `sh` of the decimal `s * 10 ^ sh` with the fewest digits
(`k` of them, from `k` on) whose Number value is `x = p / q`; of two such decimals the one
nearer to `x`, and of two equally near the even one. -/
def shortest (x : JSNum) (p q : Nat) (n0 : Int) : Nat → Nat → Nat × Int
  | 0, k =>
    (if 0 ≤ n0 - k then p / (q * 10 ^ (n0 - k).toNat) else p * 10 ^ (k - n0).toNat / q, n0 - k)
  | f + 1, k =>
    let sh : Int := n0 - k
    let num : Nat := if 0 ≤ sh then p else p * 10 ^ (-sh).toNat
    let den : Nat := if 0 ≤ sh then q * 10 ^ sh.toNat else q
    let lo := num / den
    let okLo := JSNum.eq (JSNum.ofDecimal lo 0 sh) x
    let okHi := JSNum.eq (JSNum.ofDecimal (lo + 1) 0 sh) x
    let loNearer : Bool :=
      decide (2 * num < (2 * lo + 1) * den ∨ (2 * num = (2 * lo + 1) * den ∧ lo % 2 = 0))
    if okLo = true ∧ (okHi = false ∨ loNearer = true) then (lo, sh)
    else if okHi = true then (lo + 1, sh)
    else shortest x p q n0 f (k + 1)

/-- Moves trailing zeros of the digits `s` into the exponent `sh`. -/
def stripZeros : Nat → Nat → Int → Nat × Int
  | 0, s, sh => (s, sh)
  | f + 1, s, sh => if s % 10 = 0 ∧ s ≠ 0 then stripZeros f (s / 10) (sh + 1) else (s, sh)

/-- The text of the positive decimal `s * 10 ^ sh` as `Number::toString` lays it out: an
integer below `10 ^ 21` in full, a fraction with its point, exponent notation otherwise. -/
def formatDecimal (s : Nat) (sh : Int) : String :=
  if 0 ≤ sh ∧ s * 10 ^ sh.toNat < 10 ^ 21 then Nat.repr (s * 10 ^ sh.toNat)
  else
    let c := stripZeros (Nat.toDigits 10 s).length s sh
    let ds := Nat.toDigits 10 c.1
    let n : Int := c.2 + ds.length
    if 0 < n ∧ n ≤ 21 then String.mk (ds.take n.toNat ++ ['.'] ++ ds.drop n.toNat)
    else if -6 < n ∧ n ≤ 0 then String.mk (['0', '.'] ++ List.replicate (-n).toNat '0' ++ ds)
    else
      let e : Int := n - 1
      let es := (if e < 0 then "-" else "+") ++ Nat.repr e.natAbs
      if ds.length = 1 then String.mk ds ++ "e" ++ es
      else String.mk (ds.take 1 ++ ['.'] ++ ds.drop 1) ++ "e" ++ es

/-- The builtin `Number::toString` (radix 10): the shortest decimal that reads back as the
number. -/
def JSNum.toString : JSNum → String
  | .nan => "NaN"
  | .inf false => "Infinity"
  | .inf true => "-Infinity"
  | .fin m k =>
    if m = 0 then "0"
    else
      let p := m.natAbs
      let q := 10 ^ k
      let n0 := decimalExponent p q
      let r := shortest (.fin (Int.ofNat p) k) p q n0 ((Nat.toDigits 10 p).length + 17) 1
      (if m < 0 then "-" else "") ++ formatDecimal r.1 r.2

/-! ### `StringToNumber`, the conversion behind `Number(text)` and `==` -/

/-- The code points of `StrWhiteSpaceChar` (white space and line terminators). -/
def isStrWhiteSpace (c : Char) : Bool :=
  [0x9, 0xA, 0xB, 0xC, 0xD, 0x20, 0xA0, 0x1680, 0x2000, 0x2001, 0x2002, 0x2003, 0x2004, 0x2005,
    0x2006, 0x2007, 0x2008, 0x2009, 0x200A, 0x2028, 0x2029, 0x202F, 0x205F, 0x3000,
    0xFEFF].contains c.toNat

/-- Strips leading and trailing `StrWhiteSpaceChar`s. -/
def trimWS (l : List Char) : List Char :=
  ((l.dropWhile isStrWhiteSpace).reverse.dropWhile isStrWhiteSpace).reverse

/-- Value of a decimal digit character. -/
def digitVal (c : Char) : Nat := c.toNat - 48

/-- Value of a string of decimal digits, most significant first. -/
def digitsVal (ds : List Char) : Nat := ds.foldl (fun a c => 10 * a + digitVal c) 0

/-- Value of a digit character in radix up to 16, if it is one. -/
def radixDigit (c : Char) : Option Nat :=
  if c.isDigit then some (c.toNat - 48)
  else if 'a'.toNat ≤ c.toNat ∧ c.toNat ≤ 'f'.toNat then some (c.toNat - 87)
  else if 'A'.toNat ≤ c.toNat ∧ c.toNat ≤ 'F'.toNat then some (c.toNat - 55)
  else none

/-- Folds the digits of a `NonDecimalIntegerLiteral`; `none` on a digit outside the radix. -/
def radixVal (b : Nat) : List Char → Nat → Option Nat
  | [], acc => some acc
  | c :: cs, acc =>
    match radixDigit c with
    | some d => if d < b then radixVal b cs (b * acc + d) else none
    | none => none

/-- The radix and the digits of a literal that starts `0x`, `0o` or `0b` (either case). -/
def radixHead : List Char → Option (Nat × List Char)
  | c0 :: c1 :: ds =>
    if c0 = '0' then
      if c1 = 'x' ∨ c1 = 'X' then some (16, ds)
      else if c1 = 'o' ∨ c1 = 'O' then some (8, ds)
      else if c1 = 'b' ∨ c1 = 'B' then some (2, ds)
      else none
    else none
  | _ => none

/-- An `ExponentPart` after its `e`: an optional sign and at least one digit, up to the end. -/
def parseExponent (l : List Char) : Option Int :=
  let neg := l.head? = some '-'
  let ds := if l.head? = some '-' ∨ l.head? = some '+' then l.tail else l
  if ds ≠ [] ∧ ds.all Char.isDigit then
    some (if neg then -(Int.ofNat (digitsVal ds)) else Int.ofNat (digitsVal ds))
  else none

/-- A `StrUnsignedDecimalLiteral`: `Infinity`, or digits with an optional fraction and exponent. -/
def parseUnsignedDecimal (l : List Char) : JSNum :=
  if l = "Infinity".toList then .inf false
  else
    let ip := l.takeWhile Char.isDigit
    let r1 := l.dropWhile Char.isDigit
    let hasDot := r1.head? = some '.'
    let fp := if hasDot then r1.tail.takeWhile Char.isDigit else []
    let r2 := if hasDot then r1.tail.dropWhile Char.isDigit else r1
    if ip = [] ∧ fp = [] then .nan
    else if r2 = [] then JSNum.ofDecimal (digitsVal (ip ++ fp)) fp.length 0
    else if r2.head? = some 'e' ∨ r2.head? = some 'E' then
      match parseExponent r2.tail with
      | some e => JSNum.ofDecimal (digitsVal (ip ++ fp)) fp.length e
      | none => .nan
    else .nan

/-- The builtin `StringToNumber` on the characters of a string; `NaN` when they are no numeric
literal, `0` when they are empty or white space. -/
def charsToNumber (l : List Char) : JSNum :=
  let t := trimWS l
  if t = [] then .fin 0 0
  else
    match radixHead t with
    | some (b, ds) =>
      if ds = [] then .nan
      else
        match radixVal b ds 0 with
        | some v => toDouble v 1
        | none => .nan
    | none =>
      if t.head? = some '+' then parseUnsignedDecimal t.tail
      else if t.head? = some '-' then JSNum.neg (parseUnsignedDecimal t.tail)
      else parseUnsignedDecimal t

/-- The builtin `Number(text)` on a string. -/
def stringToNumber (s : String) : JSNum := charsToNumber s.toList

/-! ## JavaScript primitive values and task records -/

/-- A JavaScript primitive value. -/
inductive JSVal where
  | undefined
  | null
  | bool (b : Bool)
  | num (n : JSNum)
  | str (s : String)
  deriving DecidableEq, Repr

/-- The number of a boolean: `true` is `1`, `false` is `0`. -/
def JSNum.ofBool (b : Bool) : JSNum := .fin (if b then 1 else 0) 0

/-- The builtin `ToBoolean` (truthiness). -/
def JSVal.toBoolean : JSVal → Bool
  | .undefined => false
  | .null => false
  | .bool b => b
  | .num n => n.toBoolean
  | .str s => decide (s ≠ "")

/-- The builtin `ToString`, as applied by a template literal. -/
def JSVal.toStr : JSVal → String
  | .undefined => "undefined"
  | .null => "null"
  | .bool b => if b then "true" else "false"
  | .num n => n.toString
  | .str s => s

/-- The builtin `Number(value)`. -/
def JSVal.toNumber : JSVal → JSNum
  | .undefined => .nan
  | .null => .fin 0 0
  | .bool b => JSNum.ofBool b
  | .num n => n
  | .str s => stringToNumber s

/-- Loose equality of a number with a value: `n == y`. -/
def numLooseEq (n : JSNum) : JSVal → Bool
  | .num m => JSNum.eq n m
  | .str s => JSNum.eq n (stringToNumber s)
  | .bool b => JSNum.eq n (JSNum.ofBool b)
  | _ => false

/-- The operator `x == y` (`IsLooselyEqual`) on primitive values. -/
def looseEq : JSVal → JSVal → Bool
  | .undefined, .undefined => true
  | .undefined, .null => true
  | .null, .undefined => true
  | .null, .null => true
  | .num n, y => numLooseEq n y
  | x, .num n => numLooseEq n x
  | .str s, .str t => decide (s = t)
  | .bool b, y => numLooseEq (JSNum.ofBool b) y
  | .str s, .bool b => numLooseEq (JSNum.ofBool b) (.str s)
  | _, _ => false

/-- A JavaScript object with primitive property values, its properties in insertion order. -/
abbrev Obj := List (String × JSVal)

/-- Property read `o.k`: `undefined` when the object has no such property. -/
def getProp (o : Obj) (k : String) : JSVal := (o.lookup k).getD .undefined

/-- Property write `o.k = v`: overwrites in place, or adds the property at the end. -/
def setProp : Obj → String → JSVal → Obj
  | [], k, v => [(k, v)]
  | (k0, v0) :: r, k, v => if k0 = k then (k0, v) :: r else (k0, v0) :: setProp r k v

/-- The object literal `{ ...base, ...o }`: the properties of `o` written over `base`. -/
def spread (base o : Obj) : Obj := o.foldl (fun acc kv => setProp acc kv.1 kv.2) base

/-! ## JSON -/

/-- A value of the JSON data model, the result of `JSON.parse`. -/
inductive Json where
  | null
  | bool (b : Bool)
  | num (n : JSNum)
  | str (s : String)
  | arr (xs : List Json)
  | obj (kvs : List (String × Json))

/-- The exceptions the embedded code can raise. -/
inductive JSError where
  | syntaxError
  | typeError
  deriving DecidableEq, Repr

/-- Defines member `k` of an object under construction: a repeated key keeps its place and
takes the later value. -/
def setMember : List (String × Json) → String → Json → List (String × Json)
  | [], k, v => [(k, v)]
  | (k0, v0) :: r, k, v => if k0 = k then (k0, v) :: r else (k0, v0) :: setMember r k v

/-- Skips JSON white space (space, tab, line feed, carriage return). -/
def skipJsonWS (l : List Char) : List Char :=
  l.dropWhile (fun c => c = ' ' ∨ c = '\t' ∨ c = '\n' ∨ c = '\r')

/-- A JSON number at the head of the input: `-? int frac? exp?`, with the rest of the input. -/
def parseJsonNumber (l : List Char) : Option (JSNum × List Char) :=
  let neg := l.head? = some '-'
  let l0 := if neg then l.tail else l
  let ip := l0.takeWhile Char.isDigit
  let r1 := l0.dropWhile Char.isDigit
  if ip = [] ∨ (ip.head? = some '0' ∧ ip.length ≠ 1) then none
  else
    let hasDot := r1.head? = some '.'
    let fp := if hasDot then r1.tail.takeWhile Char.isDigit else []
    let r2 := if hasDot then r1.tail.dropWhile Char.isDigit else r1
    if hasDot ∧ fp = [] then none
    else
      let sgn : JSNum → JSNum := fun x => if neg then JSNum.neg x else x
      if r2.head? = some 'e' ∨ r2.head? = some 'E' then
        let r3 := r2.tail
        let eneg := r3.head? = some '-'
        let r4 := if r3.head? = some '-' ∨ r3.head? = some '+' then r3.tail else r3
        let ep := r4.takeWhile Char.isDigit
        if ep = [] then none
        else
          let e : Int := if eneg then -(Int.ofNat (digitsVal ep)) else Int.ofNat (digitsVal ep)
          some (sgn (JSNum.ofDecimal (digitsVal (ip ++ fp)) fp.length e),
            r4.dropWhile Char.isDigit)
      else some (sgn (JSNum.ofDecimal (digitsVal (ip ++ fp)) fp.length 0), r2)

/-- The code unit of four hexadecimal digits, as in a `\uXXXX` escape. -/
def hex4 (l : List Char) : Option Nat :=
  if l.length = 4 then radixVal 16 l 0 else none

/-- The character of a `\uXXXX` escape with the code unit `u`, and how many characters of the
input `rest` after it belong to it too: a high surrogate takes the escape of a low surrogate
that follows and gives the character of the pair. A surrogate on its own, which a string of
Unicode characters cannot hold, is given as U+FFFD. -/
def unicodeEscape (u : Nat) (rest : List Char) : Char × Nat :=
  if 0xD800 ≤ u ∧ u < 0xDC00 then
    match rest with
    | '\\' :: 'u' :: t =>
      match hex4 (t.take 4) with
      | some v =>
        if 0xDC00 ≤ v ∧ v < 0xE000 then
          (Char.ofNat (0x10000 + (u - 0xD800) * 0x400 + (v - 0xDC00)), 6)
        else (Char.ofNat 0xFFFD, 0)
      | none => (Char.ofNat 0xFFFD, 0)
    | _ => (Char.ofNat 0xFFFD, 0)
  else if 0xDC00 ≤ u ∧ u < 0xE000 then (Char.ofNat 0xFFFD, 0)
  else (Char.ofNat u, 0)

/-- The body of a JSON string after its opening quote, up to the closing quote. -/
def parseJsonString : Nat → List Char → List Char → Option (String × List Char)
  | 0, _, _ => none
  | _ + 1, [], _ => none
  | f + 1, c :: cs, acc =>
    if c = '"' then some (String.mk acc.reverse, cs)
    else if c = '\\' then
      match cs with
      | [] => none
      | e :: r =>
        if e = '"' ∨ e = '\\' ∨ e = '/' then parseJsonString f r (e :: acc)
        else if e = 'b' then parseJsonString f r (Char.ofNat 8 :: acc)
        else if e = 'f' then parseJsonString f r (Char.ofNat 12 :: acc)
        else if e = 'n' then parseJsonString f r ('\n' :: acc)
        else if e = 'r' then parseJsonString f r ('\r' :: acc)
        else if e = 't' then parseJsonString f r ('\t' :: acc)
        else if e = 'u' then
          match hex4 (r.take 4) with
          | some u =>
            parseJsonString f ((r.drop 4).drop (unicodeEscape u (r.drop 4)).2)
              ((unicodeEscape u (r.drop 4)).1 :: acc)
          | none => none
        else none
    else if c.toNat < 0x20 then none
    else parseJsonString f cs (c :: acc)

mutual
/-- A JSON value at the head of the input, with the rest of the input. -/
def parseJsonValue : Nat → List Char → Option (Json × List Char)
  | 0, _ => none
  | f + 1, l =>
    let t := skipJsonWS l
    if t.head? = some '[' then
      if (skipJsonWS t.tail).head? = some ']' then some (.arr [], (skipJsonWS t.tail).tail)
      else parseJsonElements f t.tail []
    else if t.head? = some '{' then
      if (skipJsonWS t.tail).head? = some '}' then some (.obj [], (skipJsonWS t.tail).tail)
      else parseJsonMembers f t.tail []
    else if t.head? = some '"' then
      match parseJsonString (t.length + 1) t.tail [] with
      | some (s, r) => some (.str s, r)
      | none => none
    else if t.take 4 = "true".toList then some (.bool true, t.drop 4)
    else if t.take 5 = "false".toList then some (.bool false, t.drop 5)
    else if t.take 4 = "null".toList then some (.null, t.drop 4)
    else
      match parseJsonNumber t with
      | some (n, r) => some (.num n, r)
      | none => none
/-- The elements of a JSON array after its `[`, up to and including its `]`. -/
def parseJsonElements : Nat → List Char → List Json → Option (Json × List Char)
  | 0, _, _ => none
  | f + 1, l, acc =>
    match parseJsonValue f l with
    | none => none
    | some (v, r) =>
      let t := skipJsonWS r
      if t.head? = some ',' then parseJsonElements f t.tail (v :: acc)
      else if t.head? = some ']' then some (.arr (v :: acc).reverse, t.tail)
      else none
/-- The members of a JSON object after its `{`, up to and including its `}`. -/
def parseJsonMembers : Nat → List Char → List (String × Json) → Option (Json × List Char)
  | 0, _, _ => none
  | f + 1, l, acc =>
    let t := skipJsonWS l
    if t.head? = some '"' then
      match parseJsonString (t.length + 1) t.tail [] with
      | none => none
      | some (k, r) =>
        let t1 := skipJsonWS r
        if t1.head? = some ':' then
          match parseJsonValue f t1.tail with
          | none => none
          | some (v, r2) =>
            let t2 := skipJsonWS r2
            let acc1 := setMember acc k v
            if t2.head? = some ',' then parseJsonMembers f t2.tail acc1
            else if t2.head? = some '}' then some (.obj acc1, t2.tail)
            else none
        else none
    else none
end

/-- The builtin `JSON.parse`: the value the text denotes, or a `SyntaxError`. -/
def JSON.parse (s : String) : Except JSError Json :=
  match parseJsonValue (s.length + 2) s.toList with
  | some (v, r) => if skipJsonWS r = [] then .ok v else .error .syntaxError
  | none => .error .syntaxError

/-- The text of a JSON string literal: quoted, with the mandatory escapes. -/
def quoteJson (s : String) : String :=
  let esc : Char → List Char := fun c =>
    if c = '"' then ['\\', '"']
    else if c = '\\' then ['\\', '\\']
    else if c.toNat = 8 then ['\\', 'b']
    else if c.toNat = 12 then ['\\', 'f']
    else if c = '\n' then ['\\', 'n']
    else if c = '\r' then ['\\', 'r']
    else if c = '\t' then ['\\', 't']
    else if c.toNat < 0x20 then
      ['\\', 'u', '0', '0'] ++ (if c.toNat < 16 then ['0'] else []) ++ Nat.toDigits 16 c.toNat
    else [c]
  String.mk (['"'] ++ (s.toList.map esc).flatten ++ ['"'])

mutual
/-- The builtin `JSON.stringify` on a JSON value (no indentation). -/
def JSON.stringify : Json → String
  | .null => "null"
  | .bool b => if b then "true" else "false"
  | .num n =>
    match n with
    | .fin _ _ => n.toString
    | _ => "null"
  | .str s => quoteJson s
  | .arr xs => "[" ++ ",".intercalate (stringifyElements xs) ++ "]"
  | .obj kvs => "\x7b" ++ ",".intercalate (stringifyMembers kvs) ++ "\x7d"
/-- The texts of the elements of an array. -/
def stringifyElements : List Json → List String
  | [] => []
  | x :: xs => JSON.stringify x :: stringifyElements xs
/-- The texts of the members of an object. -/
def stringifyMembers : List (String × Json) → List String
  | [] => []
  | (k, v) :: r => (quoteJson k ++ ":" ++ JSON.stringify v) :: stringifyMembers r
end

/-! ## `classes/LocalStorage.js` -/

/-- The browser's `localStorage`: string values under string keys. -/
structure Storage where
  items : List (String × String)
  deriving DecidableEq, Repr

/-- The call `localStorage.getItem(key)`: `none` stands for `null`. -/
def Storage.getItem (st : Storage) (key : String) : Option String := st.items.lookup key

/-- Writes `val` under `key` in a key/value list, over an earlier value. -/
def setEntry : List (String × String) → String → String → List (String × String)
  | [], k, v => [(k, v)]
  | (k0, v0) :: r, k, v => if k0 = k then (k0, v) :: r else (k0, v0) :: setEntry r k v

/-- The call `localStorage.setItem(key, val)`. -/
def Storage.setItem (st : Storage) (key val : String) : Storage :=
  { items := setEntry st.items key val }

/-- The method `LocalStorage.Int(key)`. -/
def LocalStorage.Int (st : Storage) (key : String) : JSNum :=
  match st.getItem key with
  | none => .fin 0 0
  | some x =>
    if x = "" then .fin 0 0
    else
      let n := stringToNumber x
      if n.isNaN then .fin 0 0 else n

/-- The method `LocalStorage.List(key)`; `JSON.parse` may raise. -/
def LocalStorage.List (st : Storage) (key : String) : Except JSError (List Json) :=
  match st.getItem key with
  | none => .ok []
  | some x =>
    if x = "" then .ok []
    else
      match JSON.parse x with
      | .error e => .error e
      | .ok (.arr n) => .ok n
      | .ok _ => .ok []

/-- The method `LocalStorage.Set(key, val)`. -/
def LocalStorage.Set (st : Storage) (key : String) (val : Json) : Storage :=
  st.setItem key (JSON.stringify val)

/-! ## `classes/SequencialId.js` -/

/-- An instance of `SequencialId`. -/
structure SequencialId where
  currentId : JSNum
  key : String
  deriving DecidableEq, Repr

/-- The factory `SequencialId.Create(key)`, that is the constructor. -/
def SequencialId.Create (st : Storage) (key : String) : SequencialId :=
  { key := key, currentId := LocalStorage.Int st key }

/-- The method `next()`: increments and persists. -/
def SequencialId.next (s : SequencialId) (st : Storage) : SequencialId × Storage :=
  let s1 : SequencialId := { s with currentId := s.currentId.succ }
  (s1, LocalStorage.Set st s1.key (.num s1.currentId))

/-- The method `id(id = this.currentId)`: the default applies to an `undefined` argument. -/
def SequencialId.id (s : SequencialId) (id : JSVal := .undefined) : String :=
  match id with
  | .undefined => (JSVal.num s.currentId).toStr
  | v => v.toStr

/-! ## `enums/` -/

/-- The enumeration `FiltersEnum`. -/
inductive FiltersEnum where
  | All
  | Pending
  | Concluded
  deriving DecidableEq, Repr

/-- The table `Filters`: the callback of each filter, with the value it returns. -/
def Filters : FiltersEnum → Obj → JSVal
  | .All => fun _ => .bool true
  | .Pending => fun x => .bool (!(getProp x "done").toBoolean)
  | .Concluded => fun x => getProp x "done"

/-- The enumeration `ViewModes`. -/
inductive ViewModes where
  | Create
  | View
  | Edit
  deriving DecidableEq, Repr

/-! ## `classes/TaskList.js` -/

/-- An instance of `TaskList`. -/
structure TaskList where
  sequence : SequencialId
  tasks : List Obj
  curFilter : FiltersEnum
  deriving DecidableEq, Repr

/-- The constructor, given the records `stored` that `LocalStorage.List("tasks")` yields. -/
def TaskList.new (st : Storage) (stored : List Obj) : TaskList :=
  { sequence := SequencialId.Create st "current-id", tasks := stored, curFilter := .All }

/-- The method `lastId()`. -/
def TaskList.lastId (l : TaskList) : String := l.sequence.id

/-- The method `push(obj)`: the record inserted, the list and the storage afterwards. -/
def TaskList.push (l : TaskList) (st : Storage) (obj : Obj) : Obj × TaskList × Storage :=
  let toInsert : Obj := spread [("done", .bool false), ("id", .num l.sequence.currentId)] obj
  let next := l.sequence.next st
  (toInsert, { l with tasks := l.tasks ++ [toInsert], sequence := next.1 }, next.2)

/-- The scan of `Array.prototype.find` under the callback of `findById`, from position `i`: the
callback stores the position and returns the record (an object, hence truthy) on a match. -/
def findFrom (id : JSVal) : List Obj → Nat → Option Obj × Int
  | [], _ => (none, -1)
  | x :: xs, i => if looseEq (getProp x "id") id then (some x, (i : Int)) else findFrom id xs (i + 1)

/-- The method `findById(id)`: `found` and `index`. -/
def TaskList.findById (l : TaskList) (id : JSVal) : Option Obj × Int := findFrom id l.tasks 0

/-- The method `filterBy(func = () => {})`; `Array.prototype.filter` keeps the truthy results. -/
def TaskList.filterBy (l : TaskList) (func : Obj → JSVal := fun _ => .undefined) : List Obj :=
  l.tasks.filter (fun x => (func x).toBoolean)

/-- The method `getTasks(filter = Filters[FiltersEnum.All])`. -/
def TaskList.getTasks (l : TaskList) (filter : Obj → JSVal := Filters .All) : List Obj :=
  l.tasks.filter (fun x => (filter x).toBoolean)

/-! ## `classes/Dialog/Dialog.js` -/

/-- The elements of the dialog's markup that the code addresses by id: `task-id`, `task-title`,
`task-date`, `task-priority`, `task-description` and `new-task-title`. -/
inductive FieldId where
  | taskId
  | taskTitle
  | taskDate
  | taskPriority
  | taskDescription
  | newTaskTitle
  deriving DecidableEq, Repr

/-- The element properties the code reads and writes. -/
inductive Key where
  | value
  | innerText
  | disabled
  deriving DecidableEq, Repr

/-- The state of one element: text properties hold strings, `disabled` a boolean. -/
structure Elem where
  value : String
  innerText : String
  disabled : Bool
  deriving DecidableEq, Repr

/-- The functions passed as `action` to `Dialog.close`: its default `() => {}`, and `clear`. -/
inductive Callback where
  | noop
  | clear
  deriving DecidableEq, Repr

/-- A pending one-shot timer of `Dialog.close`: its delay and the `action` its callback runs. -/
structure Timer where
  delay : Nat
  action : Callback
  deriving DecidableEq, Repr

/-- An instance of `Dialog` with the elements it controls and the timers it has set. -/
structure Dialog where
  isOpen : Bool
  transition : String
  animationDuration : String
  taskId : Elem
  taskTitle : Elem
  taskDate : Elem
  taskPriority : Elem
  taskDescription : Elem
  newTaskTitle : Elem
  timers : List Timer
  deriving DecidableEq, Repr

/-- The field `openingDurationMs = 500`, which no code assigns. -/
def Dialog.openingDurationMs (_ : Dialog) : Nat := 500

/-- The field `cardCloseDelayMs = 50`, which no code assigns (nor reads). -/
def Dialog.cardCloseDelayMs (_ : Dialog) : Nat := 50

/-- The call `document.getElementById(id)`. -/
def Dialog.getElementById (d : Dialog) : FieldId → Elem
  | .taskId => d.taskId
  | .taskTitle => d.taskTitle
  | .taskDate => d.taskDate
  | .taskPriority => d.taskPriority
  | .taskDescription => d.taskDescription
  | .newTaskTitle => d.newTaskTitle

/-- Replaces the state of the element `id`. -/
def Dialog.setElement (d : Dialog) (id : FieldId) (e : Elem) : Dialog :=
  match id with
  | .taskId => { d with taskId := e }
  | .taskTitle => { d with taskTitle := e }
  | .taskDate => { d with taskDate := e }
  | .taskPriority => { d with taskPriority := e }
  | .taskDescription => { d with taskDescription := e }
  | .newTaskTitle => { d with newTaskTitle := e }

/-- The text a string-valued element property takes when `v` is assigned to it: `null` gives the
empty string, any other value its `ToString`. -/
def domString : JSVal → String
  | .null => ""
  | v => v.toStr

/-- The assignment `element[key] = newValue`: a text property takes the text of the value, as
a form control does for a text of its own kind. -/
def Elem.assign (e : Elem) (key : Key) (newValue : JSVal) : Elem :=
  match key with
  | .value => { e with value := domString newValue }
  | .innerText => { e with innerText := domString newValue }
  | .disabled => { e with disabled := newValue.toBoolean }

/-- The read `element[key]`. -/
def Elem.read (e : Elem) : Key → JSVal
  | .value => .str e.value
  | .innerText => .str e.innerText
  | .disabled => .bool e.disabled

/-- The method `in()`. -/
def Dialog.in (d : Dialog) : Dialog := { d with transition := "from-bottom" }

/-- The method `out()`. -/
def Dialog.out (d : Dialog) : Dialog := { d with transition := "to-bottom" }

/-- The method `getOpeningDuration()`. -/
def Dialog.getOpeningDuration (d : Dialog) : String :=
  (JSVal.num (JSNum.ofNat d.openingDurationMs)).toStr ++ "ms"

/-- The method `init(dialogId, cardId)`. -/
def Dialog.init (d : Dialog) : Dialog :=
  Dialog.in { d with animationDuration := d.getOpeningDuration }

/-- The method `changeField(id, newValue, key = "value")`. -/
def Dialog.changeField (d : Dialog) (id : FieldId) (newValue : JSVal) (key : Key := .value) :
    Dialog :=
  d.setElement id ((d.getElementById id).assign key newValue)

/-- The method `getField(id, key = "value")`. -/
def Dialog.getField (d : Dialog) (id : FieldId) (key : Key := .value) : JSVal :=
  (d.getElementById id).read key

/-- The method `open(action = () => {})`: toggles the class `open`, then runs `action`. -/
def Dialog.open (d : Dialog) (action : Dialog → Except JSError Dialog := fun x => .ok x) :
    Except JSError Dialog :=
  action { d with isOpen := !d.isOpen }

/-- The method `close(action = () => {})`: the exit transition now, the rest in a timer. -/
def Dialog.close (d : Dialog) (action : Callback := .noop) : Dialog :=
  let d1 := d.out
  { d1 with timers := d1.timers ++ [{ delay := d1.openingDurationMs - 50, action := action }] }

/-! ## `classes/Dialog/TaskDialog.js` -/

/-- The method `set(obj)`. -/
def TaskDialog.set (d : Dialog) (obj : Obj) : Dialog :=
  let d1 := d.changeField .taskTitle (getProp obj "title")
  let d2 := d1.changeField .taskDate (getProp obj "date")
  let d3 := d2.changeField .taskPriority (getProp obj "priority")
  d3.changeField .taskDescription (getProp obj "description")

/-- The method `view(view = true)`. -/
def TaskDialog.view (d : Dialog) (view : Bool := true) : Dialog :=
  let d1 := d.changeField .taskTitle (.bool view) .disabled
  let d2 := d1.changeField .taskDate (.bool view) .disabled
  let d3 := d2.changeField .taskPriority (.bool view) .disabled
  d3.changeField .taskDescription (.bool view) .disabled

/-- The method `clear()`. -/
def TaskDialog.clear (d : Dialog) : Dialog :=
  let d1 := d.changeField .taskTitle .null
  let d2 := d1.changeField .taskDate .null
  let d3 := d2.changeField .taskPriority (.num (.fin 0 0))
  d3.changeField .taskDescription .null

/-- The method `open(mode = ViewModes.Create, obj = null, id)`; reading a property of a `null`
record raises a `TypeError`. -/
def TaskDialog.open (d : Dialog) (mode : ViewModes := .Create) (obj : Option Obj := none)
    (id : JSVal := .undefined) : Except JSError Dialog :=
  Dialog.open d (fun d0 =>
    let d1 := d0.changeField .taskId id .innerText
    let d2 :=
      if mode = .Create then
        (d1.changeField .taskTitle (d1.getField .newTaskTitle)).changeField .newTaskTitle .null
      else d1
    if mode = .Edit ∨ mode = .View then
      match obj with
      | none => .error .typeError
      | some o =>
        let d3 := TaskDialog.set d2 o
        .ok (if mode = .View then TaskDialog.view d3 else d3)
    else .ok d2)

/-- The method `close()`. -/
def TaskDialog.close (d : Dialog) : Dialog :=
  Dialog.close (TaskDialog.view d false) .clear

/-- The method `get()`. -/
def TaskDialog.get (d : Dialog) : Obj :=
  [("id", .num (d.getField .taskId .innerText).toNumber),
   ("title", d.getField .taskTitle),
   ("date", d.getField .taskDate),
   ("priority", d.getField .taskPriority),
   ("description", d.getField .taskDescription)]

/-- Runs the function a `Callback` stands for. -/
def Callback.run : Callback → Dialog → Dialog
  | .noop => fun d => d
  | .clear => TaskDialog.clear

/-- The callback that `Dialog.close` hands to `setTimeout`. -/
def Timer.run (t : Timer) (d : Dialog) : Dialog :=
  Dialog.in (t.action.run { d with isOpen := false })

/-- The oldest pending timer fires. -/
def Dialog.fireTimer (d : Dialog) : Dialog :=
  match d.timers with
  | [] => d
  | t :: ts => t.run { d with timers := ts }

/-! ## `composable/TodoApp.js` -/

/-- A row of the rendered list: the record it shows, whether the priority and date columns are
present, and whether it carries the class `done`. -/
structure Row where
  obj : Obj
  wide : Bool
  done : Bool
  deriving DecidableEq, Repr

/-- The state `useTodoApp` closes over, with the storage and the window width. -/
structure TodoApp where
  storage : Storage
  innerWidth : Nat
  DOMList : List Row
  list : TaskList
  dialog : Dialog
  filter : FiltersEnum
  deriving DecidableEq, Repr

/-- The constant `WINDOW_BREAKPOINT`. -/
def WINDOW_BREAKPOINT : Nat := 400

/-- The function `addToDOM(obj)`: appends the row of `obj`. -/
def addToDOM (app : TodoApp) (obj : Obj) : TodoApp :=
  { app with DOMList := app.DOMList ++
      [{ obj := obj, wide := decide (app.innerWidth > WINDOW_BREAKPOINT),
         done := (getProp obj "done").toBoolean }] }

/-- The function `renderListOnDOM()`. -/
def renderListOnDOM (app : TodoApp) : TodoApp :=
  (app.list.getTasks (Filters app.filter)).foldl addToDOM { app with DOMList := [] }

/-- The function `openDialog(mode, obj, id)`; the default `id` applies to `undefined`. -/
def openDialog (app : TodoApp) (mode : ViewModes := .Create) (obj : Option Obj := none)
    (id : JSVal := .undefined) : Except JSError TodoApp :=
  let id1 : JSVal :=
    match id with
    | .undefined => .str app.list.lastId
    | v => v
  match TaskDialog.open app.dialog mode obj id1 with
  | .ok d => .ok { app with dialog := d }
  | .error e => .error e

/-- The function `closeDialog()`. -/
def closeDialog (app : TodoApp) : TodoApp :=
  { app with dialog := TaskDialog.close app.dialog }

/-- The function `saveTask()`. -/
def saveTask (app : TodoApp) : TodoApp :=
  let task := TaskDialog.get app.dialog
  let r := app.list.findById (getProp task "id")
  let app1 : TodoApp :=
    match r.1 with
    | some _ =>
      renderListOnDOM { app with list := { app.list with tasks := app.list.tasks.set r.2.toNat task } }
    | none =>
      let p := app.list.push app.storage task
      let app0 : TodoApp := { app with list := p.2.1, storage := p.2.2 }
      if (Filters app.filter p.1).toBoolean then addToDOM app0 p.1 else app0
  { app1 with dialog := TaskDialog.close app1.dialog }

/-- The function `setFilter(filterEnum, event)` (the `active` class of the buttons aside). -/
def setFilter (app : TodoApp) (filterEnum : FiltersEnum) : TodoApp :=
  renderListOnDOM { app with filter := filterEnum }

/-- The click handler of a row's view button, for the row of `obj`. -/
def viewClick (app : TodoApp) (obj : Obj) : Except JSError TodoApp :=
  match TaskDialog.open app.dialog .View (some obj) (.str (app.list.sequence.id (getProp obj "id"))) with
  | .ok d => .ok { app with dialog := d }
  | .error e => .error e

/-- The click handler of a row's edit button, for the row of `obj`. -/
def editClick (app : TodoApp) (obj : Obj) : Except JSError TodoApp :=
  match TaskDialog.open app.dialog .Edit (some obj) (.str (app.list.sequence.id (getProp obj "id"))) with
  | .ok d => .ok { app with dialog := d }
  | .error e => .error e

/-- The click handler of a row's delete button, for the row of `obj`. -/
def trashClick (app : TodoApp) (obj : Obj) : TodoApp :=
  renderListOnDOM { app with list := { app.list with
    tasks := app.list.filterBy (fun x => .bool (!looseEq (getProp x "id") (getProp obj "id"))) } }

/-- The change handler of a row's checkbox, for the row of the record at position `i`: the row
toggles its class `done` and the record takes the new state. -/
def checkboxChange (app : TodoApp) (i : Nat) : TodoApp :=
  match app.list.tasks.get? i with
  | none => app
  | some obj =>
    let done := !(getProp obj "done").toBoolean
    renderListOnDOM { app with list := { app.list with
      tasks := app.list.tasks.set i (setProp obj "done" (.bool done)) } }

/-! ## Concrete states and user actions, for the statements below -/

/-- The ten decimal digit characters. -/
def decChars : List Char := ['0', '1', '2', '3', '4', '5', '6', '7', '8', '9']

/-- A store with no records whose counter stands at 5. -/
def storeAtFive : TaskList :=
  { sequence := { currentId := .fin 5 0, key := "current-id" }, tasks := [], curFilter := .All }

/-- A record shaped like the result of the dialog's `get()`, carrying the id 2. -/
def dialogRecordTwo : Obj :=
  [("id", .num (.fin 2 0)), ("title", .str "milk"), ("date", .str ""), ("priority", .str "0"),
   ("description", .str "")]

/-- A store of three records, two of which have the id 3. -/
def storeOfThree : TaskList :=
  { sequence := { currentId := .fin 4 0, key := "current-id" },
    tasks := [[("done", .bool false), ("id", .num (.fin 1 0)), ("title", .str "a")],
              [("done", .bool true), ("id", .num (.fin 3 0)), ("title", .str "b")],
              [("done", .bool false), ("id", .num (.fin 3 0)), ("title", .str "c")]],
    curFilter := .All }

/-- An element with no text, enabled. -/
def blankElem : Elem := { value := "", innerText := "", disabled := false }

/-- The dialog before its first use: closed, its fields empty, no timer pending. -/
def closedDialog : Dialog :=
  { isOpen := false, transition := "from-bottom", animationDuration := "500ms",
    taskId := blankElem, taskTitle := blankElem, taskDate := blankElem,
    taskPriority := { blankElem with value := "0" }, taskDescription := blankElem,
    newTaskTitle := blankElem, timers := [] }

/-- A record that is done, with the id 0. -/
def doneRecord : Obj :=
  [("done", .bool true), ("id", .num (.fin 0 0)), ("title", .str "paint"),
   ("date", .str "2025-01-01"), ("priority", .str "1"), ("description", .str "")]

/-- The application holding `doneRecord` alone, its counter at 1 and its dialog closed. -/
def doneApp : TodoApp :=
  { storage := ⟨[("current-id", "1")]⟩, innerWidth := 1024,
    DOMList := [{ obj := doneRecord, wide := true, done := true }],
    list := { sequence := { currentId := .fin 1 0, key := "current-id" }, tasks := [doneRecord],
              curFilter := .All },
    dialog := closedDialog, filter := .All }

/-- The event of the oldest pending timer firing. -/
def timerFires (app : TodoApp) : TodoApp := { app with dialog := app.dialog.fireTimer }

/-- The application on an empty storage: no records, the counter at 0, the dialog closed. -/
def freshApp : TodoApp :=
  { storage := ⟨[]⟩, innerWidth := 1024, DOMList := [], list := TaskList.new ⟨[]⟩ [],
    dialog := closedDialog, filter := .All }

/-- The state after a call that completes. It is applied to `openDialog` in create mode and to
`editClick` only, which always complete (`openDialog_create`, `editClick_ok`), so that the
second branch is never taken. -/
def orStay (app : TodoApp) (r : Except JSError TodoApp) : TodoApp :=
  match r with
  | .ok a => a
  | .error _ => app

/-- The user types texts into fields of the dialog: each becomes the field's `value`. -/
def userTypes (d : Dialog) (typed : List (FieldId × String)) : Dialog :=
  typed.foldl (fun d kv => d.setElement kv.1 { d.getElementById kv.1 with value := kv.2 }) d

/-- The actions of the user: open the create dialog, type, save; press the edit button of the
record at position `i`, type, save; press the delete button of the record at position `i`; flip
the checkbox of the record at position `i`; and the event of a pending timer firing. -/
inductive Action where
  | create (typed : List (FieldId × String))
  | edit (i : Nat) (typed : List (FieldId × String))
  | delete (i : Nat)
  | toggle (i : Nat)
  | timer

/-- The effect of one action; a button of a record that does not exist cannot be pressed. The
dialog opens without a raise in both modes used here (`openDialog_create`, `editClick_ok`), so
that the `error` branches are never taken. -/
def step (app : TodoApp) : Action → TodoApp
  | .create typed =>
    match openDialog app with
    | .ok a => saveTask { a with dialog := userTypes a.dialog typed }
    | .error _ => app
  | .edit i typed =>
    match app.list.tasks.get? i with
    | none => app
    | some obj =>
      match editClick app obj with
      | .ok a => saveTask { a with dialog := userTypes a.dialog typed }
      | .error _ => app
  | .delete i =>
    match app.list.tasks.get? i with
    | none => app
    | some obj => trashClick app obj
  | .toggle i => checkboxChange app i
  | .timer => timerFires app

/-- The state after a sequence of actions. -/
def run (app : TodoApp) (actions : List Action) : TodoApp := actions.foldl step app

/-- The ids `ids` are natural numbers up to `c`, below `c` as long as `c` is below `2 ^ 53`, no
two of them equal. -/
def IdsBelow (ids : List JSVal) (c : Nat) : Prop :=
  (∀ v ∈ ids, ∃ n : Nat, v = .num (.fin (Int.ofNat n) 0) ∧ n ≤ c ∧ (c < 2 ^ 53 → n < c)) ∧
  ids.Pairwise (fun a b => a ≠ b ∧ looseEq a b = false)

/-- The invariant of the store: the counter is a natural number up to `2 ^ 53` that bounds all
ids. -/
def IdsOk (l : TaskList) : Prop :=
  ∃ c : Nat, c ≤ 2 ^ 53 ∧ l.sequence.currentId = .fin (Int.ofNat c) 0 ∧
    IdsBelow (l.tasks.map (fun x => getProp x "id")) c

/-- A sample run: two records are created (a close timer firing in between), the first is
ticked, the second is edited, the first is deleted, a third is created. -/
def sampleActions : List Action :=
  [.create [(.taskTitle, "milk")], .timer, .create [(.taskTitle, "bread"), (.taskPriority, "2")],
   .toggle 0, .edit 1 [(.taskTitle, "rye bread")], .delete 0, .create []]

/-- A task record with the integer priority 1. -/
def sampleRecord : Obj :=
  [("done", .bool false), ("id", .num (.fin 7 0)), ("title", .str "call the bank"),
   ("date", .str "2025-03-14"), ("priority", .num (JSNum.ofNat 1)),
   ("description", .str "before noon")]

/-- A record that is not done, with the id 1. -/
def pendingRecord : Obj :=
  [("done", .bool false), ("id", .num (.fin 1 0)), ("title", .str "mow"), ("date", .str ""),
   ("priority", .str "0"), ("description", .str "")]

/-- The application holding a done and a pending record under the filter `f`, its counter at 2,
its list rendered, and the create dialog open with the title `sweep` typed in. -/
def creatingApp (f : FiltersEnum) : TodoApp :=
  let base : TodoApp := renderListOnDOM
    { storage := ⟨[("current-id", "2")]⟩, innerWidth := 1024, DOMList := [],
      list := { sequence := { currentId := .fin 2 0, key := "current-id" },
                tasks := [doneRecord, pendingRecord], curFilter := .All },
      dialog := closedDialog, filter := f }
  let opened := orStay base (openDialog base)
  { opened with dialog := userTypes opened.dialog [(.taskTitle, "sweep")] }

/-- A record that is done, with the id 3. -/
def recordB : Obj :=
  [("done", .bool true), ("id", .num (.fin 3 0)), ("title", .str "b"),
   ("date", .str "2025-01-01"), ("priority", .str "1"), ("description", .str "")]

/-- A record that is not done, with the id 3 as well. -/
def recordC : Obj :=
  [("done", .bool false), ("id", .num (.fin 3 0)), ("title", .str "c"), ("date", .str ""),
   ("priority", .str "2"), ("description", .str "")]

/-- The application loaded from a storage that holds the three records `pendingRecord`,
`recordB` and `recordC`, with the ids 1, 3 and 3, and the counter 4: its list rendered, its
dialog closed. -/
def threeApp : TodoApp :=
  renderListOnDOM
    { storage := ⟨[("current-id", "4")]⟩, innerWidth := 1024, DOMList := [],
      list := { sequence := { currentId := .fin 4 0, key := "current-id" },
                tasks := [pendingRecord, recordB, recordC], curFilter := .All },
      dialog := closedDialog, filter := .All }

/-- The application with no records whose counter stands at `2 ^ 53`, its dialog closed. -/
def stuckApp : TodoApp :=
  { storage := ⟨[("current-id", "9007199254740992")]⟩, innerWidth := 1024, DOMList := [],
    list := { sequence := { currentId := .fin 9007199254740992 0, key := "current-id" },
              tasks := [], curFilter := .All },
    dialog := closedDialog, filter := .All }

/-- Whether a text has no line break (U+000A, U+000D): a single-line text field holds only
such texts. -/
def noLineBreak (s : String) : Bool := s.toList.all (fun c => c ≠ '\n' ∧ c ≠ '\r')

/-- Whether `y` is a leap year of the Gregorian calendar. -/
def isLeapYear (y : Nat) : Bool := (y % 4 = 0 ∧ y % 100 ≠ 0) ∨ y % 400 = 0

/-- The number of days of month `m` of year `y`. -/
def daysInMonth (y m : Nat) : Nat :=
  if m = 2 then (if isLeapYear y then 29 else 28)
  else if m = 4 ∨ m = 6 ∨ m = 9 ∨ m = 11 then 30 else 31

/-- Whether a text is a date `yyyy-mm-dd` of the calendar, year 0001 or later: a date field
holds only such texts, or the empty text. -/
def isValidDateString (s : String) : Bool :=
  match s.toList with
  | [a, b, c, d, '-', e, f, '-', g, h] =>
    [a, b, c, d, e, f, g, h].all Char.isDigit ∧
      1 ≤ digitsVal [a, b, c, d] ∧ 1 ≤ digitsVal [e, f] ∧ digitsVal [e, f] ≤ 12 ∧
      1 ≤ digitsVal [g, h] ∧ digitsVal [g, h] ≤ daysInMonth (digitsVal [a, b, c, d]) (digitsVal [e, f])
  | _ => false

/-! ## Decimal numerals: printing a natural number and reading it back -/

theorem digitChar_mem_decChars : ∀ d, d < 10 → Nat.digitChar d ∈ decChars := by decide

theorem digitVal_digitChar : ∀ d, d < 10 → digitVal (Nat.digitChar d) = d := by decide

theorem decChars_facts : ∀ c ∈ decChars,
    isStrWhiteSpace c = false ∧ c.isDigit = true ∧ c ≠ '+' ∧ c ≠ '-' ∧ c ≠ 'x' ∧ c ≠ 'X' ∧
    c ≠ 'o' ∧ c ≠ 'O' ∧ c ≠ 'b' ∧ c ≠ 'B' ∧ c ≠ 'I' := by decide

theorem toDigitsCore_mem (fuel : Nat) : ∀ (n : Nat) (acc : List Char),
    (∀ c ∈ acc, c ∈ decChars) → ∀ c ∈ Nat.toDigitsCore 10 fuel n acc, c ∈ decChars := by
  induction fuel with
  | zero => intro n acc h c hc; simpa [Nat.toDigitsCore] using h c hc
  | succ f ih =>
    intro n acc h c hc
    have hd : Nat.digitChar (n % 10) ∈ decChars := digitChar_mem_decChars _ (Nat.mod_lt _ (by decide))
    have hacc : ∀ c ∈ Nat.digitChar (n % 10) :: acc, c ∈ decChars := by
      intro c hc
      rcases List.mem_cons.1 hc with h1 | h1
      · exact h1 ▸ hd
      · exact h c h1
    simp only [Nat.toDigitsCore] at hc
    split at hc
    · exact hacc c hc
    · exact ih _ _ hacc c hc

theorem foldl_digits_cons (ds : List Char) : ∀ a : Nat,
    ds.foldl (fun a c => 10 * a + digitVal c) a
      = a * 10 ^ ds.length + ds.foldl (fun a c => 10 * a + digitVal c) 0 := by
  induction ds with
  | nil => intro a; simp
  | cons d ds ih =>
    intro a
    simp only [List.foldl_cons, List.length_cons]
    rw [ih (10 * a + digitVal d), ih (10 * 0 + digitVal d)]
    ring

theorem digitsVal_cons (d : Char) (ds : List Char) :
    digitsVal (d :: ds) = digitVal d * 10 ^ ds.length + digitsVal ds := by
  unfold digitsVal
  simp only [List.foldl_cons]
  rw [foldl_digits_cons]
  ring

theorem digitsVal_toDigitsCore (fuel : Nat) : ∀ (n : Nat) (acc : List Char), n < fuel →
    digitsVal (Nat.toDigitsCore 10 fuel n acc) = n * 10 ^ acc.length + digitsVal acc := by
  induction fuel with
  | zero => intro n acc h; omega
  | succ f ih =>
    intro n acc h
    simp only [Nat.toDigitsCore]
    split
    · next h0 =>
      rw [digitsVal_cons, digitVal_digitChar _ (Nat.mod_lt _ (by decide))]
      have : n % 10 = n := by omega
      rw [this]
    · next h0 =>
      have hlt : n / 10 < f := by omega
      rw [ih _ _ hlt, digitsVal_cons, digitVal_digitChar _ (Nat.mod_lt _ (by decide))]
      simp only [List.length_cons]
      have : n = 10 * (n / 10) + n % 10 := (Nat.div_add_mod n 10).symm
      nth_rewrite 3 [this]
      ring

theorem toDigitsCore_ne_nil (fuel : Nat) : ∀ (n : Nat) (acc : List Char), acc ≠ [] →
    Nat.toDigitsCore 10 fuel n acc ≠ [] := by
  induction fuel with
  | zero => intro n acc h; simpa [Nat.toDigitsCore] using h
  | succ f ih =>
    intro n acc _
    simp only [Nat.toDigitsCore]
    split
    · simp
    · exact ih _ _ (by simp)

theorem toDigits_mem (n : Nat) : ∀ c ∈ Nat.toDigits 10 n, c ∈ decChars :=
  toDigitsCore_mem _ _ _ (by simp)

theorem digitsVal_toDigits (n : Nat) : digitsVal (Nat.toDigits 10 n) = n := by
  unfold Nat.toDigits
  rw [digitsVal_toDigitsCore _ _ _ (Nat.lt_succ_self n)]
  simp [digitsVal]

theorem toDigits_ne_nil (n : Nat) : Nat.toDigits 10 n ≠ [] := by
  unfold Nat.toDigits
  simp only [Nat.toDigitsCore]
  split
  · simp
  · exact toDigitsCore_ne_nil _ _ _ (by simp)

/-! ## Binary64 rounding and printing on the natural numbers up to `2 ^ 53` -/

theorem log2Fuel_spec (f : Nat) : ∀ n, n ≤ f → n ≠ 0 →
    2 ^ log2Fuel f n ≤ n ∧ n < 2 ^ (log2Fuel f n + 1) := by
  induction f with
  | zero => intro n h h0; omega
  | succ f ih =>
    intro n h h0
    unfold log2Fuel
    by_cases h2 : n < 2
    · simp only [h2, if_true]
      omega
    · simp only [h2, if_false]
      have hlt : n / 2 ≤ f := by omega
      have hne : n / 2 ≠ 0 := by omega
      obtain ⟨h3, h4⟩ := ih (n / 2) hlt hne
      constructor
      · rw [pow_succ]; omega
      · rw [pow_succ]; omega

theorem ilog2_spec (n : Nat) (h0 : n ≠ 0) : 2 ^ ilog2 n ≤ n ∧ n < 2 ^ (ilog2 n + 1) :=
  log2Fuel_spec n n (Nat.le_refl n) h0

theorem ilog2_lt (n k : Nat) (h0 : n ≠ 0) (h : n < 2 ^ k) : ilog2 n < k := by
  by_contra hc
  have h1 := (ilog2_spec n h0).1
  have : 2 ^ k ≤ 2 ^ ilog2 n := Nat.pow_le_pow_right (by decide) (by omega)
  omega

theorem le_ilog2 (n k : Nat) (h : 2 ^ k ≤ n) : k ≤ ilog2 n := by
  have h0 : n ≠ 0 := by
    have := Nat.pos_pow_of_pos k (show 0 < 2 by decide)
    omega
  by_contra hc
  have h1 := (ilog2_spec n h0).2
  have : 2 ^ (ilog2 n + 1) ≤ 2 ^ k := Nat.pow_le_pow_right (by decide) (by omega)
  omega

theorem norm_mul_pow (n : Int) : ∀ j : Nat, JSNum.norm (n * 10 ^ j) j = .fin n 0 := by
  intro j
  induction j with
  | zero => simp [JSNum.norm]
  | succ j ih =>
    have h1 : (n * 10 ^ (j + 1)) % 10 = 0 := by
      rw [pow_succ, ← mul_assoc]; simp
    have h2 : (n * 10 ^ (j + 1)) / 10 = n * 10 ^ j := by
      rw [pow_succ, ← mul_assoc]; simp
    simp only [JSNum.norm, h1, if_true, h2, ih]


theorem ilog2_one : ilog2 1 = 0 := by decide

theorem binExponent_nat (n : Nat) (h0 : n ≠ 0) : binExponent n 1 = (ilog2 n : Int) := by
  have hs := (ilog2_spec n h0).1
  unfold binExponent
  have hg : (0 : Int) ≤ (ilog2 n : Int) - ((ilog2 1 : Nat) : Int) := by
    rw [ilog2_one]; omega
  have hgn : ((ilog2 n : Int) - ((ilog2 1 : Nat) : Int)).toNat = ilog2 n := by
    rw [ilog2_one]; omega
  simp only [hg, if_true, hgn, one_mul, hs, decide_True]
  rw [ilog2_one]; omega

theorem roundAt_nat_neg (n j : Nat) : roundAt n 1 (-(j : Int)) = .fin (Int.ofNat n) 0 := by
  cases j with
  | zero =>
    have : n % 1 = 0 := Nat.mod_one n
    simp [roundAt, this]
  | succ j =>
    have h1 : ¬ ((0 : Int) ≤ -((j + 1 : Nat) : Int)) := by omega
    have h2 : (- -((j + 1 : Nat) : Int)).toNat = j + 1 := by omega
    simp only [roundAt, h1, if_false, h2, Nat.div_one, Nat.mod_one, Nat.mul_zero]
    have h4 : ¬ (1 < 0 ∨ 0 = 1 ∧ n * 2 ^ (j + 1) % 2 = 1) := by omega
    simp only [h4, if_false]
    have h5 : (Int.ofNat (n * 2 ^ (j + 1) * 5 ^ (j + 1))) = (Int.ofNat n) * 10 ^ (j + 1) := by
      have : (10 : Int) = 2 * 5 := by norm_num
      rw [this, mul_pow]
      simp only [Int.ofNat_eq_coe]
      push_cast
      ring
    rw [h5, norm_mul_pow]

theorem toDouble_small (n : Nat) (h : n < 2 ^ 53) : toDouble n 1 = .fin (Int.ofNat n) 0 := by
  by_cases h0 : n = 0
  · subst h0; rfl
  · have hl := ilog2_lt n 53 h0 h
    unfold toDouble
    simp only [h0, if_false, binExponent_nat n h0]
    have he : max ((ilog2 n : Int) - 52) (-1074) = -((52 - ilog2 n : Nat) : Int) := by omega
    rw [he, roundAt_nat_neg]

theorem toDouble_two_pow_53 : toDouble (2 ^ 53) 1 = .fin (2 ^ 53) 0 := by decide

theorem toDouble_le (n : Nat) (h : n ≤ 2 ^ 53) : toDouble n 1 = .fin (Int.ofNat n) 0 := by
  rcases Nat.lt_or_ge n (2 ^ 53) with h1 | h1
  · exact toDouble_small n h1
  · have : n = 2 ^ 53 := by omega
    subst this
    exact toDouble_two_pow_53


theorem roundAt_nat_pos (n j : Nat) (hj : 1 ≤ j) (hn : 2 ^ (j + 52) ≤ n) :
    roundAt n 1 (j : Int) = .inf false ∨
      ∃ V : Nat, 2 ^ 53 ≤ V ∧ roundAt n 1 (j : Int) = .fin (Int.ofNat V) 0 := by
  have h1 : (0 : Int) ≤ (j : Int) := by omega
  have hm0 : 2 ^ 52 ≤ n / (1 * 2 ^ j) := by
    rw [one_mul, Nat.le_div_iff_mul_le (Nat.pos_pow_of_pos j (by decide)), ← pow_add]
    have : 52 + j = j + 52 := by omega
    rw [this]; exact hn
  have hj2 : 2 ≤ 2 ^ j := by
    calc 2 = 2 ^ 1 := by norm_num
      _ ≤ 2 ^ j := Nat.pow_le_pow_right (by decide) hj
  have hV : ∀ m : Nat, n / (1 * 2 ^ j) ≤ m → 2 ^ 53 ≤ m * 2 ^ j := by
    intro m hm
    calc 2 ^ 53 = 2 ^ 52 * 2 := by norm_num
      _ ≤ m * 2 ^ j := Nat.mul_le_mul (Nat.le_trans hm0 hm) hj2
  simp only [roundAt, h1, if_true, Int.toNat_ofNat]
  split_ifs
  · exact Or.inl rfl
  · exact Or.inr ⟨_, hV _ (Nat.le_succ _), rfl⟩
  · exact Or.inl rfl
  · exact Or.inr ⟨_, hV _ (Nat.le_refl _), rfl⟩

theorem toDouble_large (n : Nat) (h : 2 ^ 53 ≤ n) :
    toDouble n 1 = .inf false ∨ ∃ V : Nat, 2 ^ 53 ≤ V ∧ toDouble n 1 = .fin (Int.ofNat V) 0 := by
  have h0 : n ≠ 0 := by
    have : 0 < 2 ^ 53 := by norm_num
    omega
  have hl := le_ilog2 n 53 h
  have hs := (ilog2_spec n h0).1
  unfold toDouble
  simp only [h0, if_false, binExponent_nat n h0]
  have he : max ((ilog2 n : Int) - 52) (-1074) = ((ilog2 n - 52 : Nat) : Int) := by omega
  rw [he]
  apply roundAt_nat_pos _ _ (by omega)
  have : ilog2 n - 52 + 52 = ilog2 n := by omega
  rw [this]; exact hs

theorem eq_toDouble_nat (C N : Nat) (hN : N < 2 ^ 53)
    (h : JSNum.eq (toDouble C 1) (.fin (Int.ofNat N) 0) = true) : C = N := by
  rcases Nat.lt_or_ge C (2 ^ 53) with hC | hC
  · rw [toDouble_small C hC] at h
    simp only [JSNum.eq, pow_zero, mul_one, decide_eq_true_eq] at h
    exact Int.ofNat.inj h
  · rcases toDouble_large C hC with h1 | ⟨V, hV, h1⟩
    · rw [h1] at h; simp [JSNum.eq] at h
    · rw [h1] at h
      simp only [JSNum.eq, pow_zero, mul_one, decide_eq_true_eq] at h
      have := Int.ofNat.inj h
      omega

theorem shortest_nat (N L : Nat) (hN : N < 2 ^ 53) (f : Nat) : ∀ k : Nat, k ≤ L → L < k + f →
    0 ≤ (shortest (.fin (Int.ofNat N) 0) N 1 (L : Int) f k).2 ∧
    (shortest (.fin (Int.ofNat N) 0) N 1 (L : Int) f k).1 *
      10 ^ (shortest (.fin (Int.ofNat N) 0) N 1 (L : Int) f k).2.toNat = N := by
  induction f with
  | zero => intro k h1 h2; omega
  | succ f ih =>
    intro k h1 h2
    have hsh : (0 : Int) ≤ (L : Int) - (k : Int) := by omega
    have hshn : ((L : Int) - (k : Int)).toNat = L - k := by omega
    have hdec : ∀ c : Nat, JSNum.ofDecimal c 0 ((L : Int) - (k : Int))
        = toDouble (c * 10 ^ (L - k)) 1 := by
      intro c
      have h3 : (((0 : Nat) : Int)) ≤ (L : Int) - (k : Int) := by omega
      have h4 : ((L : Int) - (k : Int) - ((0 : Nat) : Int)).toNat = L - k := by omega
      simp only [JSNum.ofDecimal, h3, if_true, h4]
    unfold shortest
    simp only [hsh, if_true, hshn, hdec, one_mul]
    split_ifs with hA hB
    · refine ⟨hsh, ?_⟩
      show N / 10 ^ (L - k) * 10 ^ ((L : Int) - (k : Int)).toNat = N
      rw [hshn]
      exact eq_toDouble_nat _ N hN hA.1
    · refine ⟨hsh, ?_⟩
      show (N / 10 ^ (L - k) + 1) * 10 ^ ((L : Int) - (k : Int)).toNat = N
      rw [hshn]
      exact eq_toDouble_nat _ N hN hB
    · have hk : k < L := by
        rcases Nat.lt_or_ge k L with h | h
        · exact h
        · exfalso
          have hkL : L - k = 0 := by omega
          have hN1 : JSNum.eq (toDouble N 1) (.fin (Int.ofNat N) 0) = true := by
            rw [toDouble_small N hN]; simp [JSNum.eq]
          simp only [hkL, pow_zero, Nat.div_one, mul_one] at hA hB
          exact hA ⟨hN1, Or.inl (by simpa using hB)⟩
      have := ih (k + 1) (by omega) (by omega)
      simpa using this

theorem toString_nat (N : Nat) (hN : N < 2 ^ 53) :
    (JSNum.fin (Int.ofNat N) 0).toString = Nat.repr N := by
  by_cases h0 : N = 0
  · subst h0; decide
  · have hm : ¬ (Int.ofNat N = 0) := by simpa using h0
    have hneg : ¬ (Int.ofNat N < 0) := by simp
    have hq : 1 ≤ N := by omega
    have hL : 1 ≤ (Nat.toDigits 10 N).length := by
      have := toDigits_ne_nil N
      cases hd : Nat.toDigits 10 N with
      | nil => exact absurd hd this
      | cons c cs => simp
    have hsh := shortest_nat N (Nat.toDigits 10 N).length hN ((Nat.toDigits 10 N).length + 17) 1
      hL (by omega)
    have hlt : N < 10 ^ 21 := by
      have : (2 : Nat) ^ 53 < 10 ^ 21 := by norm_num
      omega
    have hab : (Int.ofNat N).natAbs = N := rfl
    simp only [JSNum.toString, hm, if_false, hneg, hab, pow_zero, decimalExponent,
      hq, if_true, Nat.div_one]
    simp only [formatDecimal]
    obtain ⟨h1, h2⟩ := hsh
    rw [if_pos ⟨h1, by rw [h2]; exact hlt⟩, h2]
    apply String.ext
    simp

theorem toString_le (n : Nat) (h : n ≤ 2 ^ 53) :
    (JSNum.fin (Int.ofNat n) 0).toString = Nat.repr n := by
  rcases Nat.lt_or_ge n (2 ^ 53) with h1 | h1
  · exact toString_nat n h1
  · have : n = 2 ^ 53 := by omega
    subst this
    decide

theorem ofNat_le (n : Nat) (h : n ≤ 2 ^ 53) : JSNum.ofNat n = .fin (Int.ofNat n) 0 :=
  toDouble_le n h

theorem succ_nat (n : Nat) (h : n < 2 ^ 53) :
    JSNum.succ (.fin (Int.ofNat n) 0) = .fin (Int.ofNat (n + 1)) 0 := by
  have h1 : (0 : Int) ≤ Int.ofNat n + 10 ^ 0 := by
    have : (0 : Int) ≤ Int.ofNat n := Int.ofNat_nonneg n
    omega
  have h2 : (Int.ofNat n + 10 ^ 0).natAbs = n + 1 := by
    simp only [Int.ofNat_eq_coe, pow_zero]
    omega
  simp only [JSNum.succ, h1, if_true, h2, pow_zero]
  exact toDouble_le (n + 1) (by omega)

theorem succ_two_pow_53 :
    JSNum.succ (.fin 9007199254740992 0) = .fin 9007199254740992 0 := by decide

theorem norm_is_fin (m : Int) : ∀ k : Nat, ∃ m1 k1, JSNum.norm m k = .fin m1 k1 := by
  intro k
  induction k generalizing m with
  | zero => exact ⟨m, 0, rfl⟩
  | succ k ih =>
    unfold JSNum.norm
    split
    · exact ih _
    · exact ⟨m, k + 1, rfl⟩

theorem eq_self (x : JSNum) (h : x.isNaN = false) : JSNum.eq x x = true := by
  cases x with
  | nan => simp [JSNum.isNaN] at h
  | inf b => simp [JSNum.eq]
  | fin m k => simp [JSNum.eq]

theorem norm_isNaN (m : Int) (k : Nat) : (JSNum.norm m k).isNaN = false := by
  obtain ⟨m1, k1, h⟩ := norm_is_fin m k
  rw [h]; rfl

theorem roundAt_isNaN (p q : Nat) (e : Int) : (roundAt p q e).isNaN = false := by
  unfold roundAt
  simp only
  split_ifs <;> first | rfl | exact norm_isNaN _ _

theorem toDouble_isNaN (p q : Nat) : (toDouble p q).isNaN = false := by
  unfold toDouble
  split
  · rfl
  · exact roundAt_isNaN _ _ _

theorem toDouble_eq_self (p q : Nat) : JSNum.eq (toDouble p q) (toDouble p q) = true :=
  eq_self _ (toDouble_isNaN p q)

/-! ## Reading a decimal numeral -/

theorem dropWhile_of_all_false {p : Char → Bool} (l : List Char) (h : ∀ c ∈ l, p c = false) :
    l.dropWhile p = l := by
  cases l with
  | nil => rfl
  | cons c cs => simp [List.dropWhile, h c (List.mem_cons_self _ _)]

theorem takeWhile_of_all_true {p : Char → Bool} (l : List Char) (h : ∀ c ∈ l, p c = true) :
    l.takeWhile p = l := by
  induction l with
  | nil => rfl
  | cons c cs ih =>
    simp only [List.takeWhile, h c (List.mem_cons_self _ _)]
    rw [ih (fun c hc => h c (List.mem_cons_of_mem _ hc))]

theorem dropWhile_of_all_true {p : Char → Bool} (l : List Char) (h : ∀ c ∈ l, p c = true) :
    l.dropWhile p = [] := by
  induction l with
  | nil => rfl
  | cons c cs ih =>
    simp only [List.dropWhile, h c (List.mem_cons_self _ _)]
    exact ih (fun c hc => h c (List.mem_cons_of_mem _ hc))

theorem trimWS_digits (ds : List Char) (h : ∀ c ∈ ds, c ∈ decChars) : trimWS ds = ds := by
  unfold trimWS
  rw [dropWhile_of_all_false ds (fun c hc => (decChars_facts c (h c hc)).1)]
  rw [dropWhile_of_all_false ds.reverse
    (fun c hc => (decChars_facts c (h c (List.mem_reverse.1 hc))).1)]
  exact List.reverse_reverse ds

theorem radixHead_digits (ds : List Char) (h : ∀ c ∈ ds, c ∈ decChars) : radixHead ds = none := by
  match ds, h with
  | [], _ => rfl
  | [_], _ => rfl
  | c0 :: c1 :: r, h =>
    have h1 := decChars_facts c1 (h c1 (by simp))
    simp [radixHead, h1.2.2.2.2.1, h1.2.2.2.2.2.1, h1.2.2.2.2.2.2.1, h1.2.2.2.2.2.2.2.1,
      h1.2.2.2.2.2.2.2.2.1, h1.2.2.2.2.2.2.2.2.2.1]

theorem parseUnsignedDecimal_digits (ds : List Char) (hne : ds ≠ [])
    (h : ∀ c ∈ ds, c ∈ decChars) :
    parseUnsignedDecimal ds = JSNum.ofNat (digitsVal ds) := by
  have hinf : ds ≠ "Infinity".toList := by
    intro he
    have := decChars_facts 'I' (h 'I' (by rw [he]; decide))
    exact this.2.2.2.2.2.2.2.2.2.2 rfl
  have htake : ds.takeWhile Char.isDigit = ds :=
    takeWhile_of_all_true ds (fun c hc => (decChars_facts c (h c hc)).2.1)
  have hdrop : ds.dropWhile Char.isDigit = [] :=
    dropWhile_of_all_true ds (fun c hc => (decChars_facts c (h c hc)).2.1)
  have hinf2 : ¬ ds = ['I', 'n', 'f', 'i', 'n', 'i', 't', 'y'] := hinf
  unfold parseUnsignedDecimal
  simp [hinf2, htake, hdrop, hne, JSNum.ofDecimal, JSNum.ofNat]

theorem charsToNumber_digits (ds : List Char) (hne : ds ≠ []) (h : ∀ c ∈ ds, c ∈ decChars) :
    charsToNumber ds = JSNum.ofNat (digitsVal ds) := by
  obtain ⟨c, cs, rfl⟩ := List.exists_cons_of_ne_nil hne
  have hc := decChars_facts c (h c (List.mem_cons_self _ _))
  unfold charsToNumber
  simp only [trimWS_digits _ h, radixHead_digits _ h, List.head?_cons]
  rw [parseUnsignedDecimal_digits _ hne h]
  simp [hc.2.2.1, hc.2.2.2.1]

/-- Reading the decimal numeral of a natural number gives the Number value of that number. -/
theorem stringToNumber_repr (n : Nat) : stringToNumber (Nat.repr n) = JSNum.ofNat n := by
  unfold stringToNumber Nat.repr
  show charsToNumber (Nat.toDigits 10 n) = _
  rw [charsToNumber_digits _ (toDigits_ne_nil n) (toDigits_mem n), digitsVal_toDigits]

theorem repr_ne_empty (n : Nat) : Nat.repr n ≠ "" := by
  intro h
  have := congrArg String.toList h
  exact toDigits_ne_nil n this

/-! ## Insertion and the id preview (C1) -/

/-- C1, evaluated where it fails: with the counter at 5, `lastId()` returns the text `5`, yet
`push` of a record that carries the id 2 appends and returns a record whose id is 2, since the
spread of the argument comes after the `id` property in the object literal; the counter is
advanced all the same. -/
theorem push_keeps_id_of_argument :
    TaskList.lastId storeAtFive = "5" ∧
    getProp (TaskList.push storeAtFive ⟨[]⟩ dialogRecordTwo).1 "id" = .num (.fin 2 0) ∧
    (TaskList.push storeAtFive ⟨[]⟩ dialogRecordTwo).2.1.tasks =
      [[("done", .bool false), ("id", .num (.fin 2 0)), ("title", .str "milk"), ("date", .str ""),
        ("priority", .str "0"), ("description", .str "")]] ∧
    looseEq (.num (.fin 2 0)) (.str (TaskList.lastId storeAtFive)) = false ∧
    (TaskList.push storeAtFive ⟨[]⟩ dialogRecordTwo).2.1.sequence.currentId = .fin 6 0 := by
  decide

/-! ## Storage reads (C3, C4) -/

/-- C3, evaluated where it fails: on a stored text that is not JSON, `LocalStorage.List` does
not return the empty list, it raises the `SyntaxError` of `JSON.parse`. -/
theorem list_raises_on_malformed_text :
    LocalStorage.List ⟨[("tasks", "[1,")]⟩ "tasks" = .error .syntaxError ∧
    LocalStorage.List ⟨[("tasks", "not json")]⟩ "tasks" = .error .syntaxError :=
  ⟨rfl, rfl⟩

theorem lookup_setEntry (l : List (String × String)) (k v : String) :
    (setEntry l k v).lookup k = some v := by
  induction l with
  | nil => simp [setEntry, List.lookup]
  | cons kv r ih =>
    obtain ⟨k0, v0⟩ := kv
    by_cases h : k0 = k
    · simp [setEntry, h, List.lookup]
    · have hb : (k == k0) = false := by simpa using fun e => h e.symm
      simp [setEntry, h, List.lookup, hb, ih]

/-- C4 as stated fails: the stored text `1.5` is numeric, and `LocalStorage.Int` returns the
number 1.5, which is not an integer; and the integer 9007199254740993, which is `2 ^ 53 + 1`,
written with `Set` is read back as 9007199254740992, the Number value it has. -/
theorem int_returns_non_integer :
    LocalStorage.Int ⟨[("current-id", "1.5")]⟩ "current-id" = .fin 15 1 ∧
    (LocalStorage.Int ⟨[("current-id", "1.5")]⟩ "current-id").isInteger = false ∧
    LocalStorage.Int (LocalStorage.Set ⟨[]⟩ "current-id" (.num (JSNum.ofNat 9007199254740993)))
      "current-id" = .fin 9007199254740992 0 := by
  decide

theorem int_set (st : Storage) (key : String) (n : Nat) (h : n ≤ 2 ^ 53) :
    LocalStorage.Int (LocalStorage.Set st key (.num (.fin (Int.ofNat n) 0))) key
      = .fin (Int.ofNat n) 0 := by
  have hget : (LocalStorage.Set st key (.num (.fin (Int.ofNat n) 0))).getItem key
      = some (Nat.repr n) := by
    simp only [LocalStorage.Set, Storage.setItem, Storage.getItem, lookup_setEntry]
    have : JSON.stringify (.num (.fin (Int.ofNat n) 0)) = (JSNum.fin (Int.ofNat n) 0).toString := by
      simp [JSON.stringify]
    rw [this, toString_le n h]
  unfold LocalStorage.Int
  rw [hget]
  simp [repr_ne_empty, stringToNumber_repr, ofNat_le n h, JSNum.isNaN]

/-- C4, amended: `LocalStorage.Int` returns a number that is never `NaN`, and never raises: 0
when the key is absent or the stored text is not numeric, and otherwise the Number value of the
text, `Number(text)`, which is the nearest binary64 value: the numeral of a natural number `n`
up to `2 ^ 53` is read as `n`, the text `9007199254740993` as 9007199254740992 and the text
`0.99999999999999999999` as 1. A counter value `n` from 0 to `2 ^ 53` written with `Set(key, n)`
is read back as `n`; and below `2 ^ 53` the counter that `next()` persists is the one a new
`SequencialId` starts from. -/
theorem int_reads_number (st : Storage) (key : String) :
    (LocalStorage.Int st key).isNaN = false ∧
    (st.getItem key = none → LocalStorage.Int st key = .fin 0 0) ∧
    (∀ x, st.getItem key = some x → (stringToNumber x).isNaN = true →
      LocalStorage.Int st key = .fin 0 0) ∧
    (∀ x, st.getItem key = some x → (stringToNumber x).isNaN = false →
      LocalStorage.Int st key = stringToNumber x) ∧
    (∀ n : Nat, n ≤ 2 ^ 53 → st.getItem key = some (Nat.repr n) →
      LocalStorage.Int st key = .fin (Int.ofNat n) 0) ∧
    LocalStorage.Int ⟨[("current-id", "9007199254740993")]⟩ "current-id"
      = .fin 9007199254740992 0 ∧
    LocalStorage.Int ⟨[("current-id", "0.99999999999999999999")]⟩ "current-id" = .fin 1 0 ∧
    (∀ n : Nat, n ≤ 2 ^ 53 →
      LocalStorage.Int (LocalStorage.Set st key (.num (.fin (Int.ofNat n) 0))) key
        = .fin (Int.ofNat n) 0) ∧
    (∀ n : Nat, n < 2 ^ 53 →
      SequencialId.Create (SequencialId.next ⟨.fin (Int.ofNat n) 0, key⟩ st).2 key
        = ⟨.fin (Int.ofNat (n + 1)) 0, key⟩) := by
  have hnum : ∀ x, st.getItem key = some x → (stringToNumber x).isNaN = false →
      LocalStorage.Int st key = stringToNumber x := by
    intro x hg hn
    unfold LocalStorage.Int
    rw [hg]
    by_cases hx : x = ""
    · subst hx
      simp only [if_true]
      decide
    · simp only [hx, if_false, hn]
      rfl
  refine ⟨?_, ?_, ?_, hnum, ?_, by decide, by decide, int_set st key, ?_⟩
  · unfold LocalStorage.Int
    cases hg : st.getItem key with
    | none => rfl
    | some x =>
      by_cases hx : x = ""
      · simp only [hx, if_true]; rfl
      · simp only [hx, if_false]
        cases hn : (stringToNumber x).isNaN
        · simpa using hn
        · simp only [if_true]; rfl
  · intro hg
    unfold LocalStorage.Int
    rw [hg]
  · intro x hg hn
    unfold LocalStorage.Int
    rw [hg]
    by_cases hx : x = ""
    · simp only [hx, if_true]
    · simp only [hx, if_false, hn, if_true]
  · intro n hn hg
    rw [hnum _ hg, stringToNumber_repr, ofNat_le n hn]
    rw [stringToNumber_repr]
    exact toDouble_isNaN n 1
  · intro n hn
    simp only [SequencialId.next, SequencialId.Create, succ_nat n hn]
    rw [int_set st key (n + 1) (by omega)]

/-! ## Filters (C5) -/

theorem concluded_xor_pending (x : Obj) :
    (Filters .Pending x).toBoolean = !(Filters .Concluded x).toBoolean := by
  simp [Filters, JSVal.toBoolean]

/-- C5: whatever the `done` property of each record holds, `filterBy` under the `Concluded` and
the `Pending` callbacks splits the collection in two: each result is a subsequence of the
collection, every record is in exactly one of them, together they hold the records of the
collection with their multiplicities; and under the `All` callback `filterBy` (and `getTasks`,
also by default) returns the collection itself. -/
theorem filters_partition (l : TaskList) :
    l.filterBy (Filters .All) = l.tasks ∧
    l.getTasks (Filters .All) = l.tasks ∧
    l.getTasks = l.tasks ∧
    (l.filterBy (Filters .Concluded)).Sublist l.tasks ∧
    (l.filterBy (Filters .Pending)).Sublist l.tasks ∧
    (∀ x ∈ l.tasks,
      (x ∈ l.filterBy (Filters .Concluded) ∧ x ∉ l.filterBy (Filters .Pending)) ∨
      (x ∉ l.filterBy (Filters .Concluded) ∧ x ∈ l.filterBy (Filters .Pending))) ∧
    (l.filterBy (Filters .Concluded) ++ l.filterBy (Filters .Pending)).Perm l.tasks := by
  have hall : l.tasks.filter (fun x => (Filters .All x).toBoolean) = l.tasks := by
    simp [Filters, JSVal.toBoolean]
  refine ⟨hall, hall, hall, List.filter_sublist _, List.filter_sublist _, ?_, ?_⟩
  · intro x hx
    simp only [TaskList.filterBy, List.mem_filter, concluded_xor_pending, hx, true_and]
    cases (Filters .Concluded x).toBoolean <;> simp
  · have hp : l.filterBy (Filters .Pending)
        = l.tasks.filter (fun x => !(Filters .Concluded x).toBoolean) := by
      simp only [TaskList.filterBy, concluded_xor_pending]
    rw [hp]
    exact List.filter_append_perm _ _

/-! ## Lookup by id (C6) -/

theorem findFrom_none (id : JSVal) (xs : List Obj) :
    ∀ k, (∀ x ∈ xs, looseEq (getProp x "id") id = false) → findFrom id xs k = (none, -1) := by
  induction xs with
  | nil => intro k _; rfl
  | cons x xs ih =>
    intro k h
    simp only [findFrom, h x (List.mem_cons_self _ _)]
    exact ih _ (fun y hy => h y (List.mem_cons_of_mem _ hy))

theorem findFrom_some (id : JSVal) (xs : List Obj) :
    ∀ k, (∃ x ∈ xs, looseEq (getProp x "id") id = true) →
      ∃ i x, xs.get? i = some x ∧ looseEq (getProp x "id") id = true ∧
        (∀ j y, j < i → xs.get? j = some y → looseEq (getProp y "id") id = false) ∧
        findFrom id xs k = (some x, ((k + i : Nat) : Int)) := by
  induction xs with
  | nil => intro k h; obtain ⟨x, hx, _⟩ := h; cases hx
  | cons x xs ih =>
    intro k h
    by_cases hm : looseEq (getProp x "id") id = true
    · refine ⟨0, x, rfl, hm, ?_, ?_⟩
      · intro j y hj; omega
      · simp [findFrom, hm]
    · have hm2 : looseEq (getProp x "id") id = false := by simpa using hm
      have h2 : ∃ y ∈ xs, looseEq (getProp y "id") id = true := by
        obtain ⟨y, hy, hy2⟩ := h
        rcases List.mem_cons.1 hy with rfl | hy
        · exact absurd hy2 hm
        · exact ⟨y, hy, hy2⟩
      obtain ⟨i, y, h1, h3, h4, h5⟩ := ih (k + 1) h2
      refine ⟨i + 1, y, by simpa using h1, h3, ?_, ?_⟩
      · intro j z hj hz
        cases j with
        | zero =>
          have : z = x := by simpa using hz.symm
          exact this ▸ hm2
        | succ j => exact h4 j z (by omega) (by simpa using hz)
      · simp only [findFrom, hm2]
        rw [h5]
        have : k + 1 + i = k + (i + 1) := by omega
        simp [this]

theorem looseEq_num_repr (n : Nat) :
    looseEq (.num (JSNum.ofNat n)) (.str (Nat.repr n)) = true ∧
    looseEq (.str (Nat.repr n)) (.num (JSNum.ofNat n)) = true := by
  have h := toDouble_eq_self n 1
  simp [looseEq, numLooseEq, stringToNumber_repr, JSNum.ofNat, h]

/-- C6: `findById(id)` is a linear lookup under `==`: when no record's id equals `id` (so also on
an empty collection) it returns no record and the position -1; when some record's id equals `id`
it returns the first such record and its position; and equality is coerced, so the text of a
natural number equals that number as an id. -/
theorem findById_first_match (l : TaskList) (id : JSVal) :
    ((∀ x ∈ l.tasks, looseEq (getProp x "id") id = false) → l.findById id = (none, -1)) ∧
    ((∃ x ∈ l.tasks, looseEq (getProp x "id") id = true) →
      ∃ i x, l.tasks.get? i = some x ∧ looseEq (getProp x "id") id = true ∧
        (∀ j y, j < i → l.tasks.get? j = some y → looseEq (getProp y "id") id = false) ∧
        l.findById id = (some x, (i : Int))) ∧
    (∀ n : Nat, ∀ x : Obj, getProp x "id" = .num (JSNum.ofNat n) →
      looseEq (getProp x "id") (.str (Nat.repr n)) = true) := by
  refine ⟨findFrom_none id l.tasks 0, ?_, ?_⟩
  · intro h
    obtain ⟨i, x, h1, h2, h3, h4⟩ := findFrom_some id l.tasks 0 h
    exact ⟨i, x, h1, h2, h3, by simpa [TaskList.findById] using h4⟩
  · intro n x hx
    rw [hx]
    exact (looseEq_num_repr n).1

/-- C6 at a concrete store: a record's id equals the text `3`, so `findById` returns the first
such record with its position; no record's id equals the text `7`, so it returns none and -1. -/
theorem findById_first_match_witness :
    (∃ x ∈ storeOfThree.tasks, looseEq (getProp x "id") (.str "3") = true) ∧
    (∃ i x, storeOfThree.tasks.get? i = some x ∧ looseEq (getProp x "id") (.str "3") = true ∧
        (∀ j y, j < i → storeOfThree.tasks.get? j = some y →
          looseEq (getProp y "id") (.str "3") = false) ∧
        storeOfThree.findById (.str "3") = (some x, (i : Int))) ∧
    (∀ x ∈ storeOfThree.tasks, looseEq (getProp x "id") (.str "7") = false) ∧
    storeOfThree.findById (.str "7") = (none, -1) :=
  ⟨⟨[("done", .bool true), ("id", .num (.fin 3 0)), ("title", .str "b")], by decide, by decide⟩,
   (findById_first_match storeOfThree (.str "3")).2.1
     ⟨[("done", .bool true), ("id", .num (.fin 3 0)), ("title", .str "b")], by decide, by decide⟩,
   by decide,
   (findById_first_match storeOfThree (.str "7")).1 (by decide)⟩

/-! ## Rendering leaves everything but the rows alone -/

theorem foldl_addToDOM (xs : List Obj) : ∀ app : TodoApp,
    xs.foldl addToDOM app = { app with DOMList := app.DOMList ++ xs.map (fun obj =>
      ({ obj := obj, wide := decide (app.innerWidth > WINDOW_BREAKPOINT),
         done := (getProp obj "done").toBoolean } : Row)) } := by
  induction xs with
  | nil => intro app; simp
  | cons x xs ih =>
    intro app
    rw [List.foldl_cons, ih]
    simp [addToDOM]

theorem renderListOnDOM_eq (app : TodoApp) :
    renderListOnDOM app = { app with DOMList := (List.map
      (fun obj =>
        ({ obj := obj, wide := decide (app.innerWidth > WINDOW_BREAKPOINT),
           done := (getProp obj "done").toBoolean } : Row))
      (app.list.getTasks (Filters app.filter))) } := by
  unfold renderListOnDOM
  rw [foldl_addToDOM]
  simp

/-! ## The done flag across a save (C7) -/

/-- C7, evaluated where it fails: the edit button of a done record opens the dialog on it, and
`saveTask` then puts the dialog's `get()` result, which has no `done` property, in the record's
place: the record that was done reads `undefined` for `done` afterwards and its row has lost
the class `done`. -/
theorem saveTask_edit_drops_done :
    ∃ a, editClick doneApp doneRecord = .ok a ∧
      getProp doneRecord "done" = .bool true ∧
      (saveTask a).list.tasks =
        [[("id", .num (.fin 0 0)), ("title", .str "paint"), ("date", .str "2025-01-01"),
          ("priority", .str "1"), ("description", .str "")]] ∧
      (saveTask a).list.tasks.map (fun x => getProp x "done") = [.undefined] ∧
      (saveTask a).DOMList.map (fun r => r.done) = [false] :=
  ⟨_, rfl, by decide, by decide, by decide, by decide⟩

/-! ## Opening and abandoning the create dialog (C8) -/

/-- C8 as stated fails: from the counter 0, opening the create dialog shows the candidate id 0;
after closing it without saving (and after the close timer has fired) the counter is still 0,
not greater, and the next create dialog shows the candidate id 0 again. -/
theorem abandoned_create_same_candidate :
    ∃ a b, openDialog freshApp = .ok a ∧ a.dialog.taskId.innerText = "0" ∧
      freshApp.list.sequence.currentId = .fin 0 0 ∧
      (timerFires (closeDialog a)).list.sequence.currentId = .fin 0 0 ∧
      openDialog (timerFires (closeDialog a)) = .ok b ∧ b.dialog.taskId.innerText = "0" :=
  ⟨_, _, rfl, by decide, by decide, by decide, rfl, by decide⟩

theorem openDialog_create (app : TodoApp) :
    openDialog app = .ok { app with dialog :=
      (((({ app.dialog with isOpen := !app.dialog.isOpen } : Dialog).changeField .taskId
        (.str app.list.lastId) .innerText).changeField .taskTitle
        (.str app.dialog.newTaskTitle.value)).changeField .newTaskTitle .null) } := by
  simp [openDialog, TaskDialog.open, Dialog.open, Dialog.changeField, Dialog.getField,
    Dialog.getElementById, Dialog.setElement, Elem.read]

/-- C8, amended: opening the create dialog shows the text of the counter as candidate id and
leaves the store and the storage as they were; so does closing it without saving, also once the
close timer has fired: the counter is not advanced, and the next create dialog shows the same
candidate id. -/
theorem abandoned_create_keeps_counter (app : TodoApp) :
    ∃ a, openDialog app = .ok a ∧ a.dialog.taskId.innerText = app.list.lastId ∧
      a.list = app.list ∧ a.storage = app.storage ∧
      (closeDialog a).list = app.list ∧ (closeDialog a).storage = app.storage ∧
      (timerFires (closeDialog a)).list = app.list ∧
      (timerFires (closeDialog a)).storage = app.storage ∧
      (∃ b, openDialog (closeDialog a) = .ok b ∧
        b.dialog.taskId.innerText = a.dialog.taskId.innerText) ∧
      (∃ b, openDialog (timerFires (closeDialog a)) = .ok b ∧
        b.dialog.taskId.innerText = a.dialog.taskId.innerText) := by
  refine ⟨_, openDialog_create app, ?_, rfl, rfl, rfl, rfl, rfl, rfl, ?_, ?_⟩
  · simp [Dialog.changeField, Dialog.getElementById, Dialog.setElement, Elem.assign, domString,
      JSVal.toStr]
  · refine ⟨_, openDialog_create _, ?_⟩
    simp [Dialog.changeField, Dialog.getElementById, Dialog.setElement, Elem.assign, domString,
      JSVal.toStr, closeDialog]
  · refine ⟨_, openDialog_create _, ?_⟩
    simp [Dialog.changeField, Dialog.getElementById, Dialog.setElement, Elem.assign, domString,
      JSVal.toStr, closeDialog, timerFires]

/-! ## Closing is delayed, opening is not (C10) -/

/-- C10: right after `close()` the four field values are the ones before the call, the class
`open` is as before and one timer of 450 ms has been added to the queue; when that timer fires,
in whatever state, the fields are cleared, the class `open` is removed and the entry transition
is set again; whereas `open` has run its callback when it returns: the fields are filled and
no timer is added. -/
theorem close_is_delayed_open_is_not (d : Dialog) :
    ((TaskDialog.close d).taskTitle.value = d.taskTitle.value ∧
      (TaskDialog.close d).taskDate.value = d.taskDate.value ∧
      (TaskDialog.close d).taskPriority.value = d.taskPriority.value ∧
      (TaskDialog.close d).taskDescription.value = d.taskDescription.value ∧
      (TaskDialog.close d).isOpen = d.isOpen ∧
      (TaskDialog.close d).transition = "to-bottom" ∧
      (TaskDialog.close d).timers = d.timers ++ [{ delay := 450, action := .clear }]) ∧
    (∀ s : Dialog,
      (Timer.run { delay := 450, action := .clear } s).taskTitle.value = "" ∧
      (Timer.run { delay := 450, action := .clear } s).taskDate.value = "" ∧
      (Timer.run { delay := 450, action := .clear } s).taskPriority.value = "0" ∧
      (Timer.run { delay := 450, action := .clear } s).taskDescription.value = "" ∧
      (Timer.run { delay := 450, action := .clear } s).isOpen = false ∧
      (Timer.run { delay := 450, action := .clear } s).transition = "from-bottom") ∧
    ((TaskDialog.close { d with timers := [] }).fireTimer
      = Timer.run { delay := 450, action := .clear }
          { TaskDialog.close { d with timers := [] } with timers := [] }) ∧
    (∀ action : Dialog → Except JSError Dialog,
      Dialog.open d action = action { d with isOpen := !d.isOpen }) ∧
    (∀ id : JSVal, ∃ o, TaskDialog.open d .Create none id = .ok o ∧
      o.taskId.innerText = domString id ∧ o.taskTitle.value = d.newTaskTitle.value ∧
      o.newTaskTitle.value = "" ∧ o.isOpen = (!d.isOpen) ∧ o.timers = d.timers) ∧
    (∀ (id : JSVal) (r : Obj), ∃ o, TaskDialog.open d .Edit (some r) id = .ok o ∧
      o.taskId.innerText = domString id ∧
      o.taskTitle.value = domString (getProp r "title") ∧
      o.taskDate.value = domString (getProp r "date") ∧
      o.taskPriority.value = domString (getProp r "priority") ∧
      o.taskDescription.value = domString (getProp r "description") ∧
      o.isOpen = (!d.isOpen) ∧ o.timers = d.timers) := by
  refine ⟨?_, ?_, ?_, fun _ => rfl, ?_, ?_⟩
  · simp [TaskDialog.close, Dialog.close, TaskDialog.view, Dialog.out, Dialog.changeField,
      Dialog.getElementById, Dialog.setElement, Elem.assign, Dialog.openingDurationMs]
  · intro s
    simp [Timer.run, Callback.run, TaskDialog.clear, Dialog.in, Dialog.changeField,
      Dialog.getElementById, Dialog.setElement, Elem.assign, domString, JSVal.toStr]
    decide
  · simp [Dialog.fireTimer, TaskDialog.close, Dialog.close, TaskDialog.view, Dialog.out,
      Dialog.changeField, Dialog.getElementById, Dialog.setElement, Elem.assign,
      Dialog.openingDurationMs]
  · intro id
    refine ⟨_, rfl, ?_⟩
    simp [Dialog.changeField, Dialog.getField, Dialog.getElementById, Dialog.setElement,
      Elem.assign, Elem.read, domString, JSVal.toStr]
  · intro id r
    refine ⟨_, rfl, ?_⟩
    simp [TaskDialog.set, Dialog.changeField, Dialog.getElementById, Dialog.setElement,
      Elem.assign]

/-! ## Saving: replace or insert (C9) -/

theorem findFrom_first (id : JSVal) (xs : List Obj) :
    ∀ (k i : Nat) (x : Obj), xs.get? i = some x → looseEq (getProp x "id") id = true →
      (∀ j y, j < i → xs.get? j = some y → looseEq (getProp y "id") id = false) →
      findFrom id xs k = (some x, ((k + i : Nat) : Int)) := by
  induction xs with
  | nil => intro k i x h; simp at h
  | cons z zs ih =>
    intro k i x h hm hlt
    cases i with
    | zero =>
      have hz : z = x := by simpa using h
      simp [findFrom, hz, hm]
    | succ i =>
      have hz : looseEq (getProp z "id") id = false := hlt 0 z (by omega) rfl
      simp only [findFrom, hz]
      rw [ih (k + 1) i x (by simpa using h) hm
        (fun j y hj hy => hlt (j + 1) y (by omega) (by simpa using hy))]
      have : k + 1 + i = k + (i + 1) := by omega
      simp [this]

theorem saveTask_found (app : TodoApp) (i : Nat) (x : Obj)
    (h : app.list.findById (getProp (TaskDialog.get app.dialog) "id") = (some x, (i : Int))) :
    saveTask app = { renderListOnDOM { app with list := { app.list with
        tasks := app.list.tasks.set i (TaskDialog.get app.dialog) } } with
      dialog := TaskDialog.close app.dialog } := by
  unfold saveTask
  simp only [h, Int.toNat_ofNat, renderListOnDOM_eq]

theorem saveTask_not_found (app : TodoApp)
    (h : app.list.findById (getProp (TaskDialog.get app.dialog) "id") = (none, -1)) :
    (saveTask app).list = (app.list.push app.storage (TaskDialog.get app.dialog)).2.1 ∧
    (saveTask app).storage = (app.list.push app.storage (TaskDialog.get app.dialog)).2.2 ∧
    (saveTask app).dialog = TaskDialog.close app.dialog := by
  unfold saveTask
  simp only [h]
  split <;> simp [addToDOM]

/-- C9 as stated fails: in a store whose records at positions 1 and 2 both have the id 3, the
edit button of the record at position 2 opens the dialog on it, so a record with the id of the
dialog's `get()` result exists at position 2; yet after `saveTask` position 2 holds the record
it held and not that result, and position 1, another position, holds the result instead of
the record it held. And from an empty store whose counter stands at `2 ^ 53`, the create dialog then
`saveTask` appends one record and leaves the counter where it was, not advanced by one. -/
theorem saveTask_replaces_first_match_only :
    (∃ a, editClick threeApp recordC = .ok a ∧
      a.list.tasks = [pendingRecord, recordB, recordC] ∧
      TaskDialog.get a.dialog =
        [("id", .num (.fin 3 0)), ("title", .str "c"), ("date", .str ""),
         ("priority", .str "2"), ("description", .str "")] ∧
      a.list.tasks.get? 2 = some recordC ∧
      getProp recordC "id" = getProp (TaskDialog.get a.dialog) "id" ∧
      (saveTask a).list.tasks.get? 2 = some recordC ∧
      (saveTask a).list.tasks.get? 2 ≠ some (TaskDialog.get a.dialog) ∧
      a.list.tasks.get? 1 = some recordB ∧
      (saveTask a).list.tasks.get? 1 = some (TaskDialog.get a.dialog) ∧
      (saveTask a).list.tasks.get? 1 ≠ a.list.tasks.get? 1) ∧
    (∃ b, openDialog stuckApp = .ok b ∧
      (saveTask b).list.tasks.map (fun x => getProp x "id") = [.num (.fin 9007199254740992 0)] ∧
      b.list.sequence.currentId = .fin 9007199254740992 0 ∧
      (saveTask b).list.sequence.currentId = .fin 9007199254740992 0) :=
  ⟨⟨_, rfl, by decide, by decide, by decide, by decide, by decide, by decide, by decide,
      by decide, by decide⟩,
   ⟨_, rfl, by decide, by decide, by decide⟩⟩

/-- C9, amended: `saveTask` replaces or inserts on the id of the dialog's `get()` result `d`.
When a record's id equals `d.id`, with `i` the first position of such a record (the position
that `findById` reports), the collection keeps its length, holds `d` at position `i` and what it
held at every other position, and the sequence and the storage are unchanged. When no record's
id equals `d.id`, the collection is the old one with the one record `push` builds from `d`
appended at the end, and the counter is incremented by `++`: advanced by exactly one when it is
a natural number below `2 ^ 53`. In both cases the dialog is closed by its `close()`. -/
theorem saveTask_replace_or_insert (app : TodoApp) :
    (∀ (i : Nat) (x : Obj), app.list.tasks.get? i = some x →
      looseEq (getProp x "id") (getProp (TaskDialog.get app.dialog) "id") = true →
      (∀ j y, j < i → app.list.tasks.get? j = some y →
        looseEq (getProp y "id") (getProp (TaskDialog.get app.dialog) "id") = false) →
      (saveTask app).list.tasks.length = app.list.tasks.length ∧
      (saveTask app).list.tasks.get? i = some (TaskDialog.get app.dialog) ∧
      (∀ j, j ≠ i → (saveTask app).list.tasks.get? j = app.list.tasks.get? j) ∧
      (saveTask app).list.sequence = app.list.sequence ∧
      (saveTask app).storage = app.storage ∧
      (saveTask app).dialog = TaskDialog.close app.dialog) ∧
    ((∀ x ∈ app.list.tasks,
        looseEq (getProp x "id") (getProp (TaskDialog.get app.dialog) "id") = false) →
      (saveTask app).list.tasks = app.list.tasks ++
        [spread [("done", .bool false), ("id", .num app.list.sequence.currentId)]
          (TaskDialog.get app.dialog)] ∧
      (saveTask app).list.sequence.currentId = app.list.sequence.currentId.succ ∧
      (∀ c : Nat, c < 2 ^ 53 → app.list.sequence.currentId = .fin (Int.ofNat c) 0 →
        (saveTask app).list.sequence.currentId = .fin (Int.ofNat (c + 1)) 0) ∧
      (saveTask app).dialog = TaskDialog.close app.dialog) := by
  constructor
  · intro i x hx hm hfirst
    have hf := findFrom_first _ app.list.tasks 0 i x hx hm hfirst
    have hs := saveTask_found app i x (by simpa [TaskList.findById] using hf)
    have hi : i < app.list.tasks.length := by
      rcases Nat.lt_or_ge i app.list.tasks.length with h | h
      · exact h
      · rw [List.get?_eq_none.2 h] at hx
        cases hx
    rw [hs, renderListOnDOM_eq]
    refine ⟨by simp, ?_, ?_, rfl, rfl, rfl⟩
    · simp [List.getElem?_set_self, hi]
    · intro j hj
      simp [List.getElem?_set_ne (Ne.symm hj)]
  · intro hnone
    have hf := findFrom_none _ app.list.tasks 0 hnone
    obtain ⟨h1, _, h3⟩ := saveTask_not_found app hf
    rw [h1]
    refine ⟨rfl, rfl, ?_, h3⟩
    intro c hc2 hc
    show app.list.sequence.currentId.succ = _
    rw [hc, succ_nat c hc2]

/-- C9 at two concrete states, both on the store of `threeApp`, three records with the ids 1,
3 and 3 under the counter 4: the edit dialog open on the record at position 1, the first one with the id 3,
and the create dialog open, whose candidate id 4 is found nowhere. -/
theorem saveTask_replace_or_insert_witness :
    (∃ a, editClick threeApp recordB = .ok a ∧
      a.list.tasks.get? 1 = some recordB ∧
      looseEq (getProp recordB "id") (getProp (TaskDialog.get a.dialog) "id") = true ∧
      (saveTask a).list.tasks.length = 3 ∧
      (saveTask a).list.tasks.get? 1 = some (TaskDialog.get a.dialog) ∧
      (saveTask a).list.tasks.get? 0 = threeApp.list.tasks.get? 0 ∧
      (saveTask a).list.tasks.get? 2 = threeApp.list.tasks.get? 2 ∧
      (saveTask a).list.sequence = threeApp.list.sequence) ∧
    (∃ b, openDialog threeApp = .ok b ∧
      (∀ x ∈ b.list.tasks,
        looseEq (getProp x "id") (getProp (TaskDialog.get b.dialog) "id") = false) ∧
      (saveTask b).list.tasks = threeApp.list.tasks ++
        [[("done", .bool false), ("id", .num (.fin 4 0)), ("title", .str ""), ("date", .str ""),
          ("priority", .str "0"), ("description", .str "")]] ∧
      (saveTask b).list.sequence.currentId = .fin 5 0) := by
  refine ⟨⟨orStay threeApp (editClick threeApp recordB), rfl, ?_⟩,
    ⟨orStay threeApp (openDialog threeApp), rfl, ?_⟩⟩
  · have h1 := (saveTask_replace_or_insert _).1 1 recordB
      (show (orStay threeApp (editClick threeApp recordB)).list.tasks.get? 1 = some recordB by
        decide)
      (by decide)
      (fun j y hj hy => by
        have hj0 : j = 0 := by omega
        subst hj0
        have hy2 : y = pendingRecord := by
          have h0 : (orStay threeApp (editClick threeApp recordB)).list.tasks.get? 0
              = some pendingRecord := by
            decide
          rw [h0] at hy
          exact (Option.some.inj hy).symm
        subst hy2
        decide)
    exact ⟨by decide, by decide, h1.1, h1.2.1, h1.2.2.1 0 (by decide), h1.2.2.1 2 (by decide),
      h1.2.2.2.1⟩
  · have h2 := (saveTask_replace_or_insert (orStay threeApp (openDialog threeApp))).2 (by decide)
    refine ⟨by decide, ?_, ?_⟩
    · rw [h2.1]; decide
    · exact h2.2.2.1 4 (by norm_num) (by decide)

/-! ## Unique ids in the reachable states (C2) -/

theorem userTypes_taskId_innerText (typed : List (FieldId × String)) : ∀ d : Dialog,
    (userTypes d typed).taskId.innerText = d.taskId.innerText := by
  induction typed with
  | nil => intro d; rfl
  | cons kv r ih =>
    intro d
    show (userTypes _ r).taskId.innerText = _
    rw [ih]
    obtain ⟨k, v⟩ := kv
    cases k <;> rfl

theorem looseEq_fin (m n : Nat) :
    looseEq (.num (.fin (Int.ofNat m) 0)) (.num (.fin (Int.ofNat n) 0)) = decide (m = n) := by
  simp [looseEq, numLooseEq, JSNum.eq]

theorem succ_top :
    JSNum.succ (.fin (Int.ofNat (2 ^ 53)) 0) = .fin (Int.ofNat (2 ^ 53)) 0 := by decide

theorem get_id (d : Dialog) :
    getProp (TaskDialog.get d) "id" = .num (stringToNumber d.taskId.innerText) := by
  simp [TaskDialog.get, getProp, List.lookup, Dialog.getField, Dialog.getElementById, Elem.read,
    JSVal.toNumber]

theorem getProp_setProp_ne (o : Obj) (k k1 : String) (v : JSVal) (h : k ≠ k1) :
    getProp (setProp o k v) k1 = getProp o k1 := by
  induction o with
  | nil =>
    have hb : (k1 == k) = false := by simpa using fun e => h e.symm
    simp [setProp, getProp, List.lookup, hb]
  | cons kv r ih =>
    obtain ⟨k0, v0⟩ := kv
    unfold getProp at ih ⊢
    by_cases h0 : k0 = k
    · subst h0
      have hb : (k1 == k0) = false := by simpa using fun e => h e.symm
      simp [setProp, List.lookup, hb]
    · by_cases h1 : k1 = k0
      · simp [setProp, h0, List.lookup, h1]
      · have hb : (k1 == k0) = false := by simpa using h1
        simp only [setProp, h0, if_false, List.lookup, hb]
        exact ih

theorem push_id (l : TaskList) (st : Storage) (d : Dialog) :
    getProp (l.push st (TaskDialog.get d)).1 "id" = getProp (TaskDialog.get d) "id" := by
  simp [TaskList.push, TaskDialog.get, spread, setProp, getProp, List.lookup]

theorem map_set_same {β : Type} (f : Obj → β) : ∀ (l : List Obj) (i : Nat) (x y : Obj),
    l.get? i = some x → f y = f x → (l.set i y).map f = l.map f := by
  intro l
  induction l with
  | nil => intro i x y h; simp at h
  | cons z zs ih =>
    intro i x y h hf
    cases i with
    | zero =>
      have hz : z = x := by simpa using h
      simp [hz, hf]
    | succ i =>
      simp only [List.set_cons_succ, List.map_cons]
      rw [ih i x y (by simpa using h) hf]

theorem idsBelow_sublist {ids ids1 : List JSVal} {c : Nat} (h : IdsBelow ids c)
    (hs : ids1.Sublist ids) : IdsBelow ids1 c :=
  ⟨fun v hv => h.1 v (hs.subset hv), h.2.sublist hs⟩

theorem saveTask_idsOk (app : TodoApp) (c n : Nat) (hc2 : c ≤ 2 ^ 53)
    (hc : app.list.sequence.currentId = .fin (Int.ofNat c) 0)
    (hids : IdsBelow (app.list.tasks.map (fun x => getProp x "id")) c)
    (hd : stringToNumber app.dialog.taskId.innerText = .fin (Int.ofNat n) 0) (hn : n ≤ c) :
    IdsOk (saveTask app).list := by
  have hid : getProp (TaskDialog.get app.dialog) "id" = .num (.fin (Int.ofNat n) 0) := by
    rw [get_id, hd]
  by_cases hex : ∃ x ∈ app.list.tasks,
      looseEq (getProp x "id") (getProp (TaskDialog.get app.dialog) "id") = true
  · obtain ⟨i, x, h1, h2, _, h4⟩ := findFrom_some _ app.list.tasks 0 hex
    have hs := saveTask_found app i x (by simpa [TaskList.findById] using h4)
    have hxmem : x ∈ app.list.tasks := List.get?_mem h1
    obtain ⟨m, hm, _⟩ := hids.1 (getProp x "id") (List.mem_map_of_mem _ hxmem)
    have hmn : m = n := by
      rw [hm, hid, looseEq_fin] at h2
      simpa using h2
    have hsame : getProp (TaskDialog.get app.dialog) "id" = getProp x "id" := by
      rw [hid, hm, hmn]
    rw [hs, renderListOnDOM_eq]
    refine ⟨c, hc2, hc, ?_⟩
    show IdsBelow ((app.list.tasks.set i (TaskDialog.get app.dialog)).map _) c
    rw [map_set_same _ _ i x _ h1 hsame]
    exact hids
  · have hnone : ∀ x ∈ app.list.tasks,
        looseEq (getProp x "id") (getProp (TaskDialog.get app.dialog) "id") = false := by
      intro x hx
      by_contra hne
      exact hex ⟨x, hx, by simpa using hne⟩
    obtain ⟨h1, _, _⟩ := saveTask_not_found app (findFrom_none _ app.list.tasks 0 hnone)
    rw [h1]
    have ht : (app.list.push app.storage (TaskDialog.get app.dialog)).2.1.tasks
        = app.list.tasks ++ [(app.list.push app.storage (TaskDialog.get app.dialog)).1] := rfl
    have hsucc : (app.list.push app.storage (TaskDialog.get app.dialog)).2.1.sequence.currentId
        = (JSNum.fin (Int.ofNat c) 0).succ := by
      show app.list.sequence.currentId.succ = _
      rw [hc]
    have hpair : (app.list.tasks.map (fun x => getProp x "id") ++
        [JSVal.num (.fin (Int.ofNat n) 0)]).Pairwise
          (fun a b => a ≠ b ∧ looseEq a b = false) := by
      rw [List.pairwise_append]
      refine ⟨hids.2, List.pairwise_singleton _ _, ?_⟩
      intro a ha b hb
      have hb2 : b = .num (.fin (Int.ofNat n) 0) := by simpa using hb
      obtain ⟨x, hx, rfl⟩ := List.mem_map.1 ha
      have hl := hnone x hx
      rw [hid] at hl
      refine ⟨?_, by rw [hb2]; exact hl⟩
      intro he
      rw [hb2] at he
      rw [he, looseEq_fin] at hl
      simp at hl
    rcases Nat.lt_or_ge c (2 ^ 53) with hlt | hge
    · refine ⟨c + 1, by omega, ?_, ?_⟩
      · rw [hsucc, succ_nat c hlt]
      · rw [ht, List.map_append, List.map_singleton, push_id, hid]
        refine ⟨?_, hpair⟩
        intro v hv
        rcases List.mem_append.1 hv with hv | hv
        · obtain ⟨k, hk1, hk2, hk3⟩ := hids.1 v hv
          exact ⟨k, hk1, by omega, fun _ => by omega⟩
        · exact ⟨n, by simpa using hv, by omega, fun _ => by omega⟩
    · have hc53 : c = 2 ^ 53 := by omega
      refine ⟨c, hc2, ?_, ?_⟩
      · rw [hsucc, hc53]
        exact succ_top
      · rw [ht, List.map_append, List.map_singleton, push_id, hid]
        refine ⟨?_, hpair⟩
        intro v hv
        rcases List.mem_append.1 hv with hv | hv
        · exact hids.1 v hv
        · exact ⟨n, by simpa using hv, hn, fun h => by omega⟩

theorem lastId_fin (l : TaskList) (c : Nat) (hc2 : c ≤ 2 ^ 53)
    (hc : l.sequence.currentId = .fin (Int.ofNat c) 0) : l.lastId = Nat.repr c := by
  show l.sequence.currentId.toString = _
  rw [hc]
  exact toString_le c hc2

theorem editClick_ok (app : TodoApp) (obj : Obj) :
    ∃ d, editClick app obj = .ok { app with dialog := d } ∧
      d.taskId.innerText = app.list.sequence.id (getProp obj "id") := by
  refine ⟨_, rfl, ?_⟩
  simp [TaskDialog.set, Dialog.changeField, Dialog.getElementById, Dialog.setElement,
    Elem.assign, domString, JSVal.toStr]

theorem create_taskId (app : TodoApp) (typed : List (FieldId × String)) (d : Dialog) (c : Nat)
    (hc2 : c ≤ 2 ^ 53) (hc : app.list.sequence.currentId = .fin (Int.ofNat c) 0) :
    stringToNumber (userTypes (((d.changeField .taskId (.str app.list.lastId) .innerText).changeField
        .taskTitle (.str app.dialog.newTaskTitle.value)).changeField .newTaskTitle
        .null) typed).taskId.innerText = .fin (Int.ofNat c) 0 := by
  rw [userTypes_taskId_innerText]
  have : (((d.changeField .taskId (.str app.list.lastId) .innerText).changeField
      .taskTitle (.str app.dialog.newTaskTitle.value)).changeField .newTaskTitle
      .null).taskId.innerText = app.list.lastId := by
    simp [Dialog.changeField, Dialog.getElementById, Dialog.setElement, Elem.assign, domString,
      JSVal.toStr]
  rw [this, lastId_fin _ c hc2 hc, stringToNumber_repr, ofNat_le c hc2]

theorem step_idsOk (app : TodoApp) (act : Action) (h : IdsOk app.list) :
    IdsOk (step app act).list := by
  obtain ⟨c, hc2, hc, hids⟩ := h
  cases act with
  | create typed =>
    simp only [step, openDialog_create]
    exact saveTask_idsOk _ c c hc2 hc hids (create_taskId app typed _ c hc2 hc) (Nat.le_refl c)
  | edit i typed =>
    simp only [step]
    cases hg : app.list.tasks.get? i with
    | none => exact ⟨c, hc2, hc, hids⟩
    | some obj =>
      obtain ⟨d, hd1, hd2⟩ := editClick_ok app obj
      simp only [hd1]
      obtain ⟨m, hm1, hm2, _⟩ :=
        hids.1 (getProp obj "id") (List.mem_map_of_mem _ (List.get?_mem hg))
      refine saveTask_idsOk _ c m hc2 hc hids ?_ hm2
      show stringToNumber (userTypes _ typed).taskId.innerText = _
      rw [userTypes_taskId_innerText, hd2, hm1]
      have : app.list.sequence.id (.num (.fin (Int.ofNat m) 0)) = Nat.repr m :=
        toString_le m (by omega)
      rw [this, stringToNumber_repr, ofNat_le m (by omega)]
  | delete i =>
    simp only [step]
    cases hg : app.list.tasks.get? i with
    | none => exact ⟨c, hc2, hc, hids⟩
    | some obj =>
      simp only [trashClick, renderListOnDOM_eq]
      exact ⟨c, hc2, hc, idsBelow_sublist hids ((List.filter_sublist _).map _)⟩
  | toggle i =>
    simp only [step, checkboxChange]
    cases hg : app.list.tasks.get? i with
    | none => exact ⟨c, hc2, hc, hids⟩
    | some obj =>
      simp only [renderListOnDOM_eq]
      refine ⟨c, hc2, hc, ?_⟩
      show IdsBelow ((app.list.tasks.set i _).map _) c
      rw [map_set_same _ _ i obj _ hg (getProp_setProp_ne obj "done" "id" _ (by decide))]
      exact hids
  | timer => exact ⟨c, hc2, hc, hids⟩

theorem run_idsOk (actions : List Action) : ∀ app : TodoApp, IdsOk app.list →
    IdsOk (run app actions).list := by
  induction actions with
  | nil => intro app h; exact h
  | cons act r ih => intro app h; exact ih _ (step_idsOk app act h)

theorem step_create (app : TodoApp) (typed : List (FieldId × String)) (c : Nat)
    (hc2 : c ≤ 2 ^ 53) (hc : app.list.sequence.currentId = .fin (Int.ofNat c) 0) :
    ∃ d : Dialog, step app (.create typed) = saveTask { app with dialog := d } ∧
      stringToNumber d.taskId.innerText = .fin (Int.ofNat c) 0 := by
  refine ⟨_, ?_, create_taskId app typed { app.dialog with isOpen := !app.dialog.isOpen } c hc2 hc⟩
  simp only [step, openDialog_create]

theorem create_appends (app : TodoApp) (c : Nat) (hc2 : c ≤ 2 ^ 53)
    (hc : app.list.sequence.currentId = .fin (Int.ofNat c) 0)
    (hlt : ∀ x ∈ app.list.tasks,
      ∃ n : Nat, getProp x "id" = .num (.fin (Int.ofNat n) 0) ∧ n < c) :
    (step app (.create [])).list.sequence.currentId = (JSNum.fin (Int.ofNat c) 0).succ ∧
    ∃ x, getProp x "id" = .num (.fin (Int.ofNat c) 0) ∧
      (step app (.create [])).list.tasks = app.list.tasks ++ [x] := by
  obtain ⟨d, hs, hd⟩ := step_create app [] c hc2 hc
  rw [hs]
  have hid := get_id d
  rw [hd] at hid
  have hnone : ∀ x ∈ app.list.tasks,
      looseEq (getProp x "id") (.num (.fin (Int.ofNat c) 0)) = false := by
    intro x hx
    obtain ⟨n, hn1, hn2⟩ := hlt x hx
    rw [hn1, looseEq_fin]
    simpa using Nat.ne_of_lt hn2
  rw [← hid] at hnone
  obtain ⟨h1, _, _⟩ := saveTask_not_found { app with dialog := d }
    (findFrom_none _ app.list.tasks 0 hnone)
  rw [h1]
  refine ⟨?_, (app.list.push app.storage (TaskDialog.get d)).1, ?_, rfl⟩
  · show app.list.sequence.currentId.succ = _
    rw [hc]
  · rw [push_id, hid]

theorem creates_below (k : Nat) : ∀ (app : TodoApp) (c : Nat), c + k ≤ 2 ^ 53 →
    app.list.sequence.currentId = .fin (Int.ofNat c) 0 →
    (∀ x ∈ app.list.tasks, ∃ n : Nat, getProp x "id" = .num (.fin (Int.ofNat n) 0) ∧ n < c) →
    (run app (List.replicate k (Action.create []))).list.sequence.currentId
      = .fin (Int.ofNat (c + k)) 0 ∧
    (∀ x ∈ (run app (List.replicate k (Action.create []))).list.tasks,
      ∃ n : Nat, getProp x "id" = .num (.fin (Int.ofNat n) 0) ∧ n < c + k) := by
  induction k with
  | zero => intro app c _ hc hlt; exact ⟨hc, hlt⟩
  | succ k ih =>
    intro app c hck hc hlt
    obtain ⟨h1, x, hx, h2⟩ := create_appends app c (by omega) hc hlt
    rw [succ_nat c (by omega)] at h1
    have h3 : ∀ y ∈ (step app (.create [])).list.tasks,
        ∃ n : Nat, getProp y "id" = .num (.fin (Int.ofNat n) 0) ∧ n < c + 1 := by
      intro y hy
      rw [h2] at hy
      rcases List.mem_append.1 hy with hy | hy
      · obtain ⟨n, hn1, hn2⟩ := hlt y hy
        exact ⟨n, hn1, by omega⟩
      · have : y = x := by simpa using hy
        exact ⟨c, by rw [this, hx], by omega⟩
    have h4 := ih (step app (.create [])) (c + 1) (by omega) h1 h3
    have h5 : c + 1 + k = c + (k + 1) := by omega
    rw [h5] at h4
    exact h4

theorem creates_reach_counter (k : Nat) (hk : k = 2 ^ 53) :
    (run freshApp (List.replicate k (Action.create []) ++ [Action.create []])).list.sequence.currentId
      = .fin (Int.ofNat k) 0 ∧
    ∃ x ∈ (run freshApp (List.replicate k (Action.create []) ++ [Action.create []])).list.tasks,
      getProp x "id" = .num (.fin (Int.ofNat k) 0) := by
  have h0 : ∀ x ∈ freshApp.list.tasks,
      ∃ n : Nat, getProp x "id" = .num (.fin (Int.ofNat n) 0) ∧ n < 0 := by
    intro x hx
    cases hx
  obtain ⟨h1, h2⟩ := creates_below k freshApp 0 (by omega) rfl h0
  rw [Nat.zero_add] at h1 h2
  have hrun : run freshApp (List.replicate k (Action.create []) ++ [Action.create []])
      = step (run freshApp (List.replicate k (Action.create []))) (.create []) := by
    simp [run, List.foldl_append]
  rw [hrun]
  obtain ⟨h3, x, hx, h4⟩ := create_appends _ k (by omega) h1 h2
  refine ⟨?_, x, ?_, hx⟩
  · rw [h3, hk]
    exact succ_top
  · rw [h4]
    simp

/-- C2 as stated fails: from the fresh application, `2 ^ 53` creations followed by one more
leave the counter at `2 ^ 53`, where `currentId++` no longer changes it, and a record whose id
is `2 ^ 53` too: an id that is not strictly less than the counter. -/
theorem id_reaches_counter :
    freshApp.list.tasks = [] ∧ freshApp.list.sequence.currentId = .fin 0 0 ∧
    (run freshApp (List.replicate (2 ^ 53) (Action.create []) ++
      [Action.create []])).list.sequence.currentId = .fin (Int.ofNat (2 ^ 53)) 0 ∧
    ∃ x ∈ (run freshApp (List.replicate (2 ^ 53) (Action.create []) ++
        [Action.create []])).list.tasks,
      getProp x "id" = .num (.fin (Int.ofNat (2 ^ 53)) 0) :=
  ⟨rfl, rfl, creates_reach_counter (2 ^ 53) rfl⟩

/-- C2, amended: in every state reached from an empty collection with the counter at 0 by the
user's actions (create dialog then save, edit dialog on a record then save, delete, toggle, with
the close timers firing at any point), the counter is a natural number `c` up to `2 ^ 53`,
every record's id is a natural number that is at most `c`, and strictly below `c` as long as
`c` is below `2 ^ 53`, and no two records' ids are equal, as values or under `==`. -/
theorem ids_unique_in_reachable_states (app : TodoApp) (actions : List Action)
    (hempty : app.list.tasks = []) (hzero : app.list.sequence.currentId = .fin 0 0) :
    ∃ c : Nat, c ≤ 2 ^ 53 ∧ (run app actions).list.sequence.currentId = .fin (Int.ofNat c) 0 ∧
      (∀ x ∈ (run app actions).list.tasks,
        ∃ n : Nat, getProp x "id" = .num (.fin (Int.ofNat n) 0) ∧ n ≤ c ∧
          (c < 2 ^ 53 → n < c)) ∧
      (run app actions).list.tasks.Pairwise (fun x y =>
        getProp x "id" ≠ getProp y "id" ∧ looseEq (getProp x "id") (getProp y "id") = false) := by
  have h0 : IdsOk app.list := by
    refine ⟨0, by omega, hzero, ?_, ?_⟩
    · simp [hempty]
    · simp [hempty]
  obtain ⟨c, hc2, hc, h1, h2⟩ := run_idsOk actions app h0
  refine ⟨c, hc2, hc, ?_, ?_⟩
  · intro x hx
    exact h1 _ (List.mem_map_of_mem _ hx)
  · exact List.pairwise_map.1 h2

/-- C2 at a concrete run from the fresh application: the hypotheses hold, and so do the bound
and the uniqueness of the ids of the two records the run ends with, 1 and 2 under counter 3. -/
theorem ids_unique_in_reachable_states_witness :
    freshApp.list.tasks = [] ∧ freshApp.list.sequence.currentId = .fin 0 0 ∧
    (run freshApp sampleActions).list.tasks.map (fun x => getProp x "id")
      = [.num (.fin 1 0), .num (.fin 2 0)] ∧
    (run freshApp sampleActions).list.sequence.currentId = .fin 3 0 ∧
    ∃ c : Nat, c ≤ 2 ^ 53 ∧
      (run freshApp sampleActions).list.sequence.currentId = .fin (Int.ofNat c) 0 ∧
      (∀ x ∈ (run freshApp sampleActions).list.tasks,
        ∃ n : Nat, getProp x "id" = .num (.fin (Int.ofNat n) 0) ∧ n ≤ c ∧
          (c < 2 ^ 53 → n < c)) ∧
      (run freshApp sampleActions).list.tasks.Pairwise (fun x y =>
        getProp x "id" ≠ getProp y "id" ∧ looseEq (getProp x "id") (getProp y "id") = false) :=
  ⟨rfl, rfl, by decide, by decide,
    ids_unique_in_reachable_states freshApp sampleActions rfl rfl⟩

/-! ## The dialog's fields: `set` then `get` (C11) -/

theorem get_set (d : Dialog) (r : Obj) :
    TaskDialog.get (TaskDialog.set d r) =
      [("id", .num (stringToNumber d.taskId.innerText)),
       ("title", .str (domString (getProp r "title"))),
       ("date", .str (domString (getProp r "date"))),
       ("priority", .str (domString (getProp r "priority"))),
       ("description", .str (domString (getProp r "description")))] := by
  simp [TaskDialog.get, TaskDialog.set, Dialog.changeField, Dialog.getField,
    Dialog.getElementById, Dialog.setElement, Elem.assign, Elem.read, JSVal.toNumber]

/-- C11 as stated fails: after `set` of a record whose priority is the integer 1, `get()` returns
the priority as the text `1`, which is not the integer 1 (the texts of the other three fields
do come back). -/
theorem set_get_priority_is_text :
    getProp sampleRecord "priority" = .num (JSNum.ofNat 1) ∧
    getProp (TaskDialog.get (TaskDialog.set closedDialog sampleRecord)) "priority" = .str "1" ∧
    getProp (TaskDialog.get (TaskDialog.set closedDialog sampleRecord)) "priority"
      ≠ getProp sampleRecord "priority" ∧
    getProp (TaskDialog.get (TaskDialog.set closedDialog sampleRecord)) "title"
      = getProp sampleRecord "title" := by
  decide

/-- C11, amended: for every dialog state and every record `r` whose title and description are
texts without a line break, whose date is the empty text or a date `yyyy-mm-dd` of the calendar
and whose priority is one of the integers 0, 1 and 2, `set(r)` followed by `get()` returns a
record whose title, date and description are those of `r` and whose priority is the decimal
text of the priority of `r`, equal to it under `==`; the id it returns is the one the dialog
showed before, and it has no `done` property. -/
theorem set_get_round_trip (d : Dialog) (r : Obj) (t dt ds : String) (n : Nat)
    (ht : getProp r "title" = .str t) (_ht1 : noLineBreak t = true)
    (hdt : getProp r "date" = .str dt) (_hdt1 : dt = "" ∨ isValidDateString dt = true)
    (hp : getProp r "priority" = .num (JSNum.ofNat n)) (hp1 : n ≤ 2)
    (hds : getProp r "description" = .str ds) (_hds1 : noLineBreak ds = true) :
    getProp (TaskDialog.get (TaskDialog.set d r)) "title" = getProp r "title" ∧
    getProp (TaskDialog.get (TaskDialog.set d r)) "date" = getProp r "date" ∧
    getProp (TaskDialog.get (TaskDialog.set d r)) "description" = getProp r "description" ∧
    getProp (TaskDialog.get (TaskDialog.set d r)) "priority" = .str (Nat.repr n) ∧
    looseEq (getProp (TaskDialog.get (TaskDialog.set d r)) "priority") (getProp r "priority")
      = true ∧
    getProp (TaskDialog.get (TaskDialog.set d r)) "id" = getProp (TaskDialog.get d) "id" ∧
    getProp (TaskDialog.get (TaskDialog.set d r)) "done" = .undefined := by
  have hprio : domString (.num (JSNum.ofNat n)) = Nat.repr n := by
    show (JSNum.ofNat n).toString = _
    rw [ofNat_le n (by omega)]
    exact toString_le n (by omega)
  rw [get_set, get_id, ht, hdt, hp, hds, hprio]
  refine ⟨?_, ?_, ?_, ?_, ?_, ?_, ?_⟩
  · simp [getProp, List.lookup, domString, JSVal.toStr]
  · simp [getProp, List.lookup, domString, JSVal.toStr]
  · simp [getProp, List.lookup, domString, JSVal.toStr]
  · simp [getProp, List.lookup]
  · have : getProp [("id", JSVal.num (stringToNumber d.taskId.innerText)),
        ("title", .str (domString (.str t))), ("date", .str (domString (.str dt))),
        ("priority", .str (Nat.repr n)), ("description", .str (domString (.str ds)))] "priority"
        = .str (Nat.repr n) := by
      simp [getProp, List.lookup]
    rw [this]
    exact (looseEq_num_repr n).2
  · simp [getProp, List.lookup]
  · simp [getProp, List.lookup]

/-- C11 at a concrete record: `sampleRecord` has one-line texts for title and description, the
date 2025-03-14 and the integer priority 1; after `set` on the closed dialog, `get()` returns
its three texts and the priority text `1`. -/
theorem set_get_round_trip_witness :
    (getProp sampleRecord "title" = .str "call the bank" ∧
      noLineBreak "call the bank" = true ∧
      getProp sampleRecord "date" = .str "2025-03-14" ∧
      isValidDateString "2025-03-14" = true ∧
      getProp sampleRecord "priority" = .num (JSNum.ofNat 1) ∧
      getProp sampleRecord "description" = .str "before noon" ∧
      noLineBreak "before noon" = true) ∧
    (getProp (TaskDialog.get (TaskDialog.set closedDialog sampleRecord)) "title"
        = getProp sampleRecord "title" ∧
      getProp (TaskDialog.get (TaskDialog.set closedDialog sampleRecord)) "date"
        = getProp sampleRecord "date" ∧
      getProp (TaskDialog.get (TaskDialog.set closedDialog sampleRecord)) "description"
        = getProp sampleRecord "description" ∧
      getProp (TaskDialog.get (TaskDialog.set closedDialog sampleRecord)) "priority"
        = .str (Nat.repr 1) ∧
      looseEq (getProp (TaskDialog.get (TaskDialog.set closedDialog sampleRecord)) "priority")
        (getProp sampleRecord "priority") = true) :=
  have h := set_get_round_trip closedDialog sampleRecord "call the bank" "2025-03-14"
    "before noon" 1 (by decide) (by decide) (by decide) (Or.inr (by decide)) (by decide)
    (by decide) (by decide) (by decide)
  ⟨⟨by decide, by decide, by decide, by decide, by decide, by decide, by decide⟩,
    h.1, h.2.1, h.2.2.1, h.2.2.2.1, h.2.2.2.2.1⟩

/-! ## The create path of `saveTask` against a full render (C12) -/

theorem saveTask_not_found_rows (app : TodoApp)
    (h : app.list.findById (getProp (TaskDialog.get app.dialog) "id") = (none, -1)) :
    (saveTask app).DOMList =
      (if (Filters app.filter (app.list.push app.storage (TaskDialog.get app.dialog)).1).toBoolean
       then app.DOMList ++
        [({ obj := (app.list.push app.storage (TaskDialog.get app.dialog)).1,
            wide := decide (app.innerWidth > WINDOW_BREAKPOINT),
            done := (getProp (app.list.push app.storage (TaskDialog.get app.dialog)).1
              "done").toBoolean } : Row)]
       else app.DOMList) ∧
    (saveTask app).filter = app.filter ∧
    (saveTask app).innerWidth = app.innerWidth := by
  unfold saveTask
  simp only [h]
  split <;> simp [addToDOM]

/-- C12: when no record has the dialog's id, so that `saveTask` inserts, and the rows on the page
show the records `getTasks(filter)` returns, in order, then after `saveTask` (which appends one
row, and only when the new record passes the active filter) the rows again show the records
`getTasks(filter)` returns for the updated collection, whichever of the three filters is active;
and if the rows were the ones a full render produces, they are again the ones a full render
of the state after `saveTask` produces. -/
theorem saveTask_create_matches_render (app : TodoApp)
    (hnone : ∀ x ∈ app.list.tasks,
      looseEq (getProp x "id") (getProp (TaskDialog.get app.dialog) "id") = false)
    (hrows : app.DOMList.map (fun r => r.obj) = app.list.getTasks (Filters app.filter)) :
    (saveTask app).filter = app.filter ∧
    (saveTask app).DOMList.map (fun r => r.obj)
      = (saveTask app).list.getTasks (Filters (saveTask app).filter) ∧
    (app.DOMList = (renderListOnDOM app).DOMList →
      (saveTask app).DOMList = (renderListOnDOM (saveTask app)).DOMList) := by
  have hf := findFrom_none _ app.list.tasks 0 hnone
  obtain ⟨hl, _, _⟩ := saveTask_not_found app hf
  obtain ⟨hd, hfil, hw⟩ := saveTask_not_found_rows app hf
  have ht : (saveTask app).list.tasks
      = app.list.tasks ++ [(app.list.push app.storage (TaskDialog.get app.dialog)).1] := by
    rw [hl]; rfl
  refine ⟨hfil, ?_, ?_⟩
  · rw [hd, hfil]
    simp only [TaskList.getTasks, ht, List.filter_append]
    simp only [TaskList.getTasks] at hrows
    by_cases hc : (Filters app.filter
        (app.list.push app.storage (TaskDialog.get app.dialog)).1).toBoolean = true
    · simp [hc, hrows]
    · simp [hc, hrows]
  · intro hfull
    rw [renderListOnDOM_eq] at hfull
    rw [renderListOnDOM_eq, hd, hfil, hw]
    simp only [TaskList.getTasks, ht, List.filter_append, List.map_append]
    simp only [TaskList.getTasks] at hfull
    by_cases hc : (Filters app.filter
        (app.list.push app.storage (TaskDialog.get app.dialog)).1).toBoolean = true
    · simp [hc, ← hfull]
    · simp [hc, ← hfull]

/-- C12 at three concrete states, one for each filter: a done and a pending record are rendered,
the create dialog shows the candidate id 2, which no record has; after `saveTask` the rows show
what `getTasks(filter)` returns: three records under `All`, two under `Pending`, one under
`Concluded`. -/
theorem saveTask_create_matches_render_witness :
    ((∀ x ∈ (creatingApp .All).list.tasks, looseEq (getProp x "id")
        (getProp (TaskDialog.get (creatingApp .All).dialog) "id") = false) ∧
      (creatingApp .All).DOMList.map (fun r => r.obj)
        = (creatingApp .All).list.getTasks (Filters (creatingApp .All).filter) ∧
      (saveTask (creatingApp .All)).DOMList.map (fun r => r.obj)
        = (saveTask (creatingApp .All)).list.getTasks (Filters (saveTask (creatingApp .All)).filter) ∧
      ((saveTask (creatingApp .All)).DOMList.map (fun r => getProp r.obj "id"))
        = [.num (.fin 0 0), .num (.fin 1 0), .num (.fin 2 0)]) ∧
    ((saveTask (creatingApp .Pending)).DOMList.map (fun r => r.obj)
        = (saveTask (creatingApp .Pending)).list.getTasks
            (Filters (saveTask (creatingApp .Pending)).filter) ∧
      ((saveTask (creatingApp .Pending)).DOMList.map (fun r => getProp r.obj "id"))
        = [.num (.fin 1 0), .num (.fin 2 0)]) ∧
    ((saveTask (creatingApp .Concluded)).DOMList.map (fun r => r.obj)
        = (saveTask (creatingApp .Concluded)).list.getTasks
            (Filters (saveTask (creatingApp .Concluded)).filter) ∧
      ((saveTask (creatingApp .Concluded)).DOMList.map (fun r => getProp r.obj "id"))
        = [.num (.fin 0 0)]) :=
  ⟨⟨by decide, by decide,
      (saveTask_create_matches_render (creatingApp .All) (by decide) (by decide)).2.1, by decide⟩,
    ⟨(saveTask_create_matches_render (creatingApp .Pending) (by decide) (by decide)).2.1,
      by decide⟩,
    ⟨(saveTask_create_matches_render (creatingApp .Concluded) (by decide) (by decide)).2.1,
      by decide⟩⟩

end TodoList
